import Mathlib

/-!
The bdev layer of lxc (`src/lxc/bdev.c`).

A shallow embedding of the backing-store drivers and of the clone/copy
orchestrator, followed by the properties established about them.

Conventions of the embedding.

* A C string is the list of its characters before the terminating NUL; a
  `char *` that may be `NULL` is an `Option`.
* A pointer into a string is the suffix it points at; an offset is a `Nat`.
* Calls that leave the process (system calls, child processes, external tools)
  are recorded, in order, in a trace of `Event`s.  What such a call returns is
  read from an `Env`, which may answer differently for every history.
* `malloc`, `strdup` and `alloca` are taken to succeed.
* Lengths and offsets are natural numbers.  The `int` in which `dir_new_path`
  accumulates its allocation size is reduced to 32 bits at every assignment
  (`to_int`).
* A loop whose termination depends on the data runs on fuel and yields `none`
  when the fuel is used up.
-/

namespace Lxc

/-! ## C strings -/

/-- A NUL-terminated C string, without its terminator. -/
abbrev CStr := List Char

/-- The function `strstr(hay, needle)`: offset of the first occurrence of `needle` in
`hay`, `none` for `NULL`.  An empty needle is found at offset 0. -/
def strstr : CStr → CStr → Option Nat
  | [], needle => if needle = [] then some 0 else none
  | c :: t, needle =>
    if needle <+: c :: t then some 0 else (strstr t needle).map (· + 1)

/-- The test `strncmp(a, b, n) == 0`: the first `n` characters agree (a string
that ends earlier must end where the other one does). -/
def strncmp_eq (a b : CStr) (n : Nat) : Bool :=
  decide (a.take n = b.take n)

/-- The function `index(s, c)`: offset of the first `c` in `s`. -/
def index : CStr → Char → Option Nat
  | [], _ => none
  | x :: t, c => if x = c then some 0 else (index t c).map (· + 1)

/-- The function `rindex(s, c)`: offset of the last `c` in `s`. -/
def rindex : CStr → Char → Option Nat
  | [], _ => none
  | x :: t, c =>
    match rindex t c with
    | some k => some (k + 1)
    | none => if x = c then some 0 else none

/-- The call `snprintf(buf, size, fmt, ...)` where the formatted text is `s`: the
buffer receives at most `size - 1` characters, the return value is the full
length. -/
def snprintf (size : Nat) (s : CStr) : CStr × Int :=
  (s.take (size - 1), (s.length : Int))

/-! ## Path rewriting: `dir_new_path` -/

/-- The value that an assignment stores in a C `int` (32 bits, two's
complement). -/
def to_int (x : Int) : Int :=
  (x + 2147483648) % 4294967296 - 2147483648

/-- First loop of `dir_new_path` (the counting pass):
`while ((p = strstr(p, oldname)) != NULL) { p += l2; nlen += strlen(name) - l2; }`.
The variable `nlen` is an `int`. -/
def dir_new_path_count : Nat → CStr → CStr → CStr → Int → Option Int
  | 0, _, _, _, _ => none
  | fuel + 1, p, oldname, name, nlen =>
    match strstr p oldname with
    | none => some nlen
    | some k =>
      dir_new_path_count fuel (p.drop (k + oldname.length)) oldname name
        (to_int (nlen + ((name.length : Int) - (oldname.length : Int))))

/-- The allocation size `nlen` that `dir_new_path` passes to `malloc`.  The
variable `nlen` is an `int`; `l1` (and `l2` in the loops) are the lengths of
`oldpath` and `oldname`. -/
def dir_new_path_nlen (fuel : Nat) (src oldname name oldpath lxcpath : CStr) :
    Option Int :=
  let nlen : Int := to_int ((src.length : Int) + 1)
  let l1 := oldpath.length
  if strncmp_eq src oldpath l1 then
    dir_new_path_count fuel (src.drop l1) oldname name
      (to_int (nlen + ((lxcpath.length : Int) - (l1 : Int))))
  else
    dir_new_path_count fuel src oldname name nlen

/-- Second loop of `dir_new_path` (the writing pass); `out` is what has been
written to `ret` so far:
`while ((p2 = strstr(src, oldname)) != NULL) { copy src up to p2; print name;
src = p2 + l2; }` and then `sprintf(p, "%s", src)`. -/
def dir_new_path_write : Nat → CStr → CStr → CStr → CStr → Option CStr
  | 0, _, _, _, _ => none
  | fuel + 1, src, oldname, name, out =>
    match strstr src oldname with
    | none => some (out ++ src)
    | some k =>
      dir_new_path_write fuel (src.drop (k + oldname.length)) oldname name
        (out ++ src.take k ++ name)

/-- The function `dir_new_path(src, oldname, name, oldpath, lxcpath)`; `none` when the
fuel does not suffice for one of its two loops. -/
def dir_new_path (fuel : Nat) (src oldname name oldpath lxcpath : CStr) : Option CStr :=
  match dir_new_path_nlen fuel src oldname name oldpath lxcpath with
  | none => none
  | some _ =>
    let l1 := oldpath.length
    if strncmp_eq src oldpath l1 then
      dir_new_path_write fuel (src.drop l1) oldname name lxcpath
    else
      dir_new_path_write fuel src oldname name []

/-- Specification side of the path rewrite (spec 4.4, item 2): scan `s` from
left to right; where `oldname` occurs at the current position emit `name` and
pass over the occurrence, otherwise copy one character.  `skip` is the number of
characters of the occurrence just replaced that are still to be passed over. -/
def replace_occurrences (oldname name : CStr) : Nat → CStr → CStr
  | _, [] => []
  | skip + 1, _ :: t => replace_occurrences oldname name skip t
  | 0, c :: t =>
    if oldname <+: c :: t then
      name ++ replace_occurrences oldname name (oldname.length - 1) t
    else
      c :: replace_occurrences oldname name 0 t

/-- Specification side of the match count (spec 4.4, item 3): the number of
non-overlapping occurrences of `oldname` in `s`, found from left to right;
`skip` as in `replace_occurrences`. -/
def count_occurrences (oldname : CStr) : Nat → CStr → Nat
  | _, [] => 0
  | skip + 1, _ :: t => count_occurrences oldname skip t
  | 0, c :: t =>
    if oldname <+: c :: t then
      1 + count_occurrences oldname (oldname.length - 1) t
    else
      count_occurrences oldname 0 t

/-- The writes of the second loop of `dir_new_path` into the buffer `ret`: for
each write, in order, the offset just past its last byte.  `off` is the offset
of `p`.  In a round, `strncpy` writes the `p2 - src` bytes before the match and
`sprintf` writes `name` and a NUL; the final `sprintf` writes the rest of `src`
and a NUL. -/
def dir_new_path_write_ends : Nat → CStr → CStr → CStr → Nat → Option (List Nat)
  | 0, _, _, _, _ => none
  | fuel + 1, src, oldname, name, off =>
    match strstr src oldname with
    | none => some [off + src.length + 1]
    | some k =>
      match dir_new_path_write_ends fuel (src.drop (k + oldname.length)) oldname name
          (off + k + name.length) with
      | none => none
      | some ends => some ((off + k) :: (off + k + name.length + 1) :: ends)

/-- All writes of `dir_new_path` into `ret`: the `sprintf` of `lxcpath` (with
its NUL) when `src` starts with `oldpath`, then those of the loop. -/
def dir_new_path_ends (fuel : Nat) (src oldname name oldpath lxcpath : CStr) :
    Option (List Nat) :=
  match dir_new_path_nlen fuel src oldname name oldpath lxcpath with
  | none => none
  | some _ =>
    let l1 := oldpath.length
    if strncmp_eq src oldpath l1 then
      match dir_new_path_write_ends fuel (src.drop l1) oldname name lxcpath.length with
      | none => none
      | some ends => some ((lxcpath.length + 1) :: ends)
    else
      dir_new_path_write_ends fuel src oldname name 0

/-- Specification side of the path rewrite (spec 4.4): if `src` begins with
`oldroot` the result is `newroot` followed by the rewritten remainder, otherwise
the rewritten `src`. -/
def path_rewrite (src oldname newname oldroot newroot : CStr) : CStr :=
  if oldroot <+: src then
    newroot ++ replace_occurrences oldname newname 0 (src.drop oldroot.length)
  else
    replace_occurrences oldname newname 0 src

/-! ## Records, events and the environment -/

/-- The five drivers; a value stands for the address of the driver's
`struct bdev_ops`. -/
inductive Driver
  | zfs
  | lvm
  | btrfs
  | dir
  | overlayfs
deriving DecidableEq, Repr

/-- The record `struct bdev`: `ops`, `type`, `src`, `dest`, `data`. -/
structure bdev where
  ops : Driver
  type : CStr
  src : Option CStr
  dest : Option CStr
  data : Option CStr
deriving DecidableEq, Repr

/-- One entry of the driver table, `struct bdev_type`. -/
structure bdev_type where
  name : CStr
  ops : Driver
deriving DecidableEq, Repr

/-- A call that leaves the process, with its arguments.  A file descriptor is
named by the path it was opened on.  `detect` is one probe of a driver,
`mkdir_p` the helper of `utils.c` (defined outside `bdev.c`, taken as one call),
`append_tmp_a` the line that `btrfs_subvolume_create` appends to
`/tmp/a`. -/
inductive Event
  | detect (name path : CStr)
  | popen (command : CStr)
  | fork
  | unshare
  | exec (file : CStr) (argv : List CStr)
  | mount (source target fstype : CStr) (flags : Nat) (data : Option CStr)
  | umount (target : CStr)
  | mkdir_p (path : CStr)
  | mkdir (path : CStr)
  | rmdir (path : CStr)
  | open_rdonly (path : CStr)
  | blkgetsize64 (path : CStr)
  | detect_fs (src dest : CStr)
  | subvol_create (dir name : CStr)
  | snap_create (dir orig name : CStr)
  | append_tmp_a (ret : Int)
deriving DecidableEq, Repr

/-- Whether the call is a `mount`. -/
def Event.is_mount : Event → Bool
  | Event.mount _ _ _ _ _ => true
  | _ => false

/-- Whether the call is a `umount`. -/
def Event.is_umount : Event → Bool
  | Event.umount _ => true
  | _ => false

/-- The trace `tr2` continues `tr` by calls that all satisfy `P`. -/
def extends_by (P : Event → Bool) (tr tr2 : List Event) : Prop :=
  ∃ evs, tr2 = tr ++ evs ∧ ∀ e ∈ evs, P e = true

/-- The file type in `st_mode`, as far as the drivers look at it. -/
inductive FileType
  | directory
  | block_device
  | other
deriving DecidableEq, Repr

/-- What `stat` reports about a path, as far as the drivers look at it:
`st_mode`, `st_ino` and the major and minor numbers of `st_rdev`. -/
structure Stat where
  mode : FileType
  ino : Nat
  major : Nat
  minor : Nat
deriving DecidableEq, Repr

/-- The world outside the process.  The first group answers the calls recorded
in the trace: each function is asked with the history that ends in the call.
`ret` is the value the call returns: at a `fork` what `fork` returns to the
parent (negative: no child), at an `exec` the exit status of the child process
(an `execlp` that fails falls through to `exit(1)`, so that status is 1);
`errno` is the value of `errno` after the call; `blksize` what `BLKGETSIZE64`
stores; `fstype` what the child of `detect_fs` writes to the pipe.  The second
group is the state the detect probes and the readers of files see, which the
probes do not change: `stat`; whether `open` succeeds; whether
`BTRFS_IOC_SPACE_INFO` succeeds; whether `access(path, F_OK)` succeeds; the
bytes of a file; the lines of a file (`none`: it cannot be opened); the lines
that `fgets` reads from `zfs list` (`none`: `popen` failed). -/
structure Env where
  ret : List Event → Int
  errno : List Event → Int
  blksize : List Event → Nat
  fstype : List Event → CStr
  stat : CStr → Option Stat
  can_open : CStr → Bool
  space_info : CStr → Bool
  access : CStr → Bool
  contents : CStr → Option CStr
  lines : CStr → Option (List CStr)
  zfs_list : Option (List CStr)

/-- The constant `MAXPATHLEN` of `<sys/param.h>` (`PATH_MAX` on Linux). -/
def MAXPATHLEN : Nat := 4096

/-- The constant `ENOENT` of `<errno.h>`. -/
def ENOENT : Int := 2

/-- The constant `ENOMEM` of `<errno.h>`. -/
def ENOMEM : Int := 12

/-- The flags `MS_BIND | MS_REC` of `<sys/mount.h>`. -/
def MS_BIND_REC : Nat := 4096 + 16384

/-- The flag `MS_MGC_VAL` of `<sys/mount.h>`. -/
def MS_MGC_VAL : Nat := 0xC0ED0000

/-- The constant `BTRFS_SUBVOL_NAME_MAX`. -/
def BTRFS_SUBVOL_NAME_MAX : Nat := 4039

/-- Modelled from the spec: `wait_for_pid` of `utils.c`, which `bdev.c` calls
and does not define.  "The parent waits and surfaces nonzero exit as failure":
0 when the child exited with status 0, -1 otherwise. -/
def wait_for_pid (status : Int) : Int :=
  if status = 0 then 0 else -1

/-- The text `"%s/%s/rootfs"` formatted with a root and a container name. -/
def rootfs_fmt (lxcpath cname : CStr) : CStr :=
  lxcpath ++ "/".toList ++ cname ++ "/rootfs".toList

/-! ## Helpers: `do_rsync`, `blk_getsize`, `do_mkfs`, `detect_fs` -/

/-- The function `do_rsync(src, dest)`: the child runs
`rsync -a <src>/ <dest>`.  A `NULL` `dest` ends the argument list early. -/
def do_rsync (env : Env) (tr : List Event) (src : CStr) (dest : Option CStr) :
    Int × List Event :=
  let tr1 := tr ++ [Event.fork]
  if env.ret tr1 < 0 then (-1, tr1) else
  let s := src ++ "/".toList
  let tr2 := tr1 ++ [Event.exec "rsync".toList
    (["rsync".toList, "-a".toList, s] ++ dest.toList)]
  (wait_for_pid (env.ret tr2), tr2)

/-- The function `blk_getsize(path, &size)`: returns the result of the ioctl and the
value of `size` afterwards.  The test after `open` is `!fd`, as in the source. -/
def blk_getsize (env : Env) (tr : List Event) (path : CStr) (size : Nat) :
    Int × Nat × List Event :=
  let tr1 := tr ++ [Event.open_rdonly path]
  if env.ret tr1 = 0 then (-1, size, tr1) else
  let tr2 := tr1 ++ [Event.blkgetsize64 path]
  let ret := env.ret tr2
  (ret, if ret < 0 then size else env.blksize tr2 % 2 ^ 64, tr2)

/-- The function `do_mkfs(path, fstype)`: the child runs `mkfs -t <fstype> <path>`. -/
def do_mkfs (env : Env) (tr : List Event) (path fstype : CStr) : Int × List Event :=
  let tr1 := tr ++ [Event.fork]
  if env.ret tr1 < 0 then (-1, tr1) else
  let tr2 := tr1 ++ [Event.exec "mkfs".toList
    ["mkfs".toList, "-t".toList, fstype, path]]
  (wait_for_pid (env.ret tr2), tr2)

/-- The function `detect_fs(bdev, type, len)`.  The guard on the record is the
source's; the probing child (trial mounts in a private mount namespace, the
scan of /proc/self/mounts, the pipe) is one call answered by the environment:
`ret` is the number of bytes read from the pipe or -1, `fstype` what was read. -/
def detect_fs (env : Env) (tr : List Event) (b : bdev) (len : Nat) :
    Int × CStr × List Event :=
  match b.src, b.dest with
  | some src, some dest =>
    let tr1 := tr ++ [Event.detect_fs src dest]
    let ret := env.ret tr1
    if ret ≤ 0 then (-1, [], tr1) else (ret, (env.fstype tr1).take (len - 1), tr1)
  | _, _ => (-1, [], tr)

/-- Modelled from the spec: `lxc_char_left_gc` and `lxc_char_right_gc` of
`utils.c`, which `bdev.c` calls and does not define: "trim whitespace". -/
def trim (s : CStr) : CStr :=
  let ws : Char → Bool := fun c => c = ' ' || c = '\t' || c = '\n'
  ((s.dropWhile ws).reverse.dropWhile ws).reverse

/-- The callback `find_fstype_cb(buffer, data)`. -/
def find_fstype_cb (env : Env) (rootfs target : CStr) (mntopt : Nat)
    (tr : List Event) (buffer : CStr) : Int × List Event :=
  if (strstr buffer "nodev".toList).isSome then (0, tr) else
  let fstype := trim buffer
  let tr1 := tr ++ [Event.mount rootfs target fstype mntopt none]
  if env.ret tr1 ≠ 0 then (0, tr1) else (1, tr1)

/-- Modelled from the spec: the line loop of `lxc_file_for_each_line` of
`parse.c`, which `bdev.c` calls and does not define: the callback is run on
every line in order, the first nonzero answer stops the loop and is
returned. -/
def lxc_file_for_each_line (cb : List Event → CStr → Int × List Event) :
    List CStr → List Event → Int × List Event
  | [], tr => (0, tr)
  | l :: ls, tr =>
    let r := cb tr l
    if r.1 ≠ 0 then r else lxc_file_for_each_line cb ls r.2

/-- The loop of `mount_unknow_fs` over `fsfile[]`: a file that `access` does not
find is passed over; one that cannot be read makes `lxc_file_for_each_line`
return -1. -/
def mount_unknow_fs_loop (env : Env) (rootfs target : CStr) (mntopt : Nat) :
    List CStr → List Event → Int × List Event
  | [], tr => (-1, tr)
  | f :: fs, tr =>
    if !env.access f then mount_unknow_fs_loop env rootfs target mntopt fs tr else
    match env.lines f with
    | none => (-1, tr)
    | some ls =>
      let r := lxc_file_for_each_line (find_fstype_cb env rootfs target mntopt) ls tr
      if r.1 < 0 then (-1, r.2)
      else if r.1 ≠ 0 then (0, r.2)
      else mount_unknow_fs_loop env rootfs target mntopt fs r.2

/-- The function `mount_unknow_fs(rootfs, target, mntopt)`. -/
def mount_unknow_fs (env : Env) (tr : List Event) (rootfs target : CStr) (mntopt : Nat) :
    Int × List Event :=
  mount_unknow_fs_loop env rootfs target mntopt
    ["/etc/filesystems".toList, "/proc/filesystems".toList] tr

/-! ## The directory driver -/

/-- The function `is_dir(path)`. -/
def is_dir (env : Env) (path : CStr) : Bool :=
  match env.stat path with
  | some st => if st.mode = FileType.directory then true else false
  | none => false

/-- The function `dir_detect(path)`. -/
def dir_detect (env : Env) (path : CStr) : Bool :=
  if strncmp_eq path "dir:".toList 4 then true
  else if is_dir env path then true
  else false

/-- The function `dir_mount(bdev)`. -/
def dir_mount (env : Env) (tr : List Event) (b : bdev) : Int × List Event :=
  if b.type ≠ "dir".toList then (-22, tr) else
  match b.src, b.dest with
  | some src, some dest =>
    let tr1 := tr ++ [Event.mount src dest "bind".toList MS_BIND_REC none]
    (env.ret tr1, tr1)
  | _, _ => (-22, tr)

/-- The function `dir_umount(bdev)`. -/
def dir_umount (env : Env) (tr : List Event) (b : bdev) : Int × List Event :=
  if b.type ≠ "dir".toList then (-22, tr) else
  match b.src, b.dest with
  | some _, some dest =>
    let tr1 := tr ++ [Event.umount dest]
    (env.ret tr1, tr1)
  | _, _ => (-22, tr)

/-- The function `dir_clonepaths(orig, new, oldname, cname, oldpath, lxcpath, snap,
newsize)`: the return value and the record `new` afterwards. -/
def dir_clonepaths (orig new : bdev) (_oldname cname _oldpath lxcpath : CStr)
    (snap : Bool) (_newsize : Nat) : Int × bdev :=
  if snap then (-1, new) else
  if orig.dest.isNone || orig.src.isNone then (-1, new) else
  let len := lxcpath.length + cname.length + "rootfs".length + 3
  let p := snprintf len (rootfs_fmt lxcpath cname)
  let new1 := { new with src := some p.1 }
  if p.2 < 0 ∨ p.2 ≥ (len : Int) then (-1, new1) else
  (0, { new1 with dest := some p.1 })

/-! ## The zfs driver -/

/-- The function `zfs_list_entry(path, output)`: the first line of `zfs list` in which
`path` occurs; `none` when there is none or `popen` failed. -/
def zfs_list_entry (env : Env) (path : CStr) : Option CStr :=
  match env.zfs_list with
  | none => none
  | some ls => ls.find? (fun l => (strstr l path).isSome)

/-- The function `zfs_detect(path)`. -/
def zfs_detect (env : Env) (path : CStr) : Bool :=
  (zfs_list_entry env path).isSome

/-- The function `zfs_mount(bdev)`. -/
def zfs_mount (env : Env) (tr : List Event) (b : bdev) : Int × List Event :=
  if b.type ≠ "zfs".toList then (-22, tr) else
  match b.src, b.dest with
  | some src, some dest =>
    let tr1 := tr ++ [Event.mount src dest "bind".toList MS_BIND_REC none]
    (env.ret tr1, tr1)
  | _, _ => (-22, tr)

/-- The function `zfs_umount(bdev)`. -/
def zfs_umount (env : Env) (tr : List Event) (b : bdev) : Int × List Event :=
  if b.type ≠ "zfs".toList then (-22, tr) else
  match b.src, b.dest with
  | some _, some dest =>
    let tr1 := tr ++ [Event.umount dest]
    (env.ret tr1, tr1)
  | _, _ => (-22, tr)

/-- The snapshot branch of `zfs_clone`, entered with the zfs root in `output`
and the formatted mount point option. -/
def zfs_clone_snapshot (env : Env) (tr : List Event) (output option oname nname : CStr) :
    Int × List Event :=
  let path1 := snprintf MAXPATHLEN (output ++ "/".toList ++ oname ++ "@".toList ++ nname)
  if path1.2 < 0 ∨ path1.2 ≥ (MAXPATHLEN : Int) then (-1, tr) else
  let path2 := snprintf MAXPATHLEN (output ++ "/".toList ++ nname)
  -- if the snapshot exists, delete it
  let tr1 := tr ++ [Event.fork]
  if env.ret tr1 < 0 then (-1, tr1) else
  let tr2 := tr1 ++ [Event.exec "zfs".toList ["zfs".toList, "destroy".toList, path1.1]]
  -- run first (snapshot) command
  let tr3 := tr2 ++ [Event.fork]
  if env.ret tr3 < 0 then (-1, tr3) else
  let tr4 := tr3 ++ [Event.exec "zfs".toList ["zfs".toList, "snapshot".toList, path1.1]]
  if wait_for_pid (env.ret tr4) < 0 then (-1, tr4) else
  -- run second (clone) command
  let tr5 := tr4 ++ [Event.fork]
  if env.ret tr5 < 0 then (-1, tr5) else
  let tr6 := tr5 ++ [Event.exec "zfs".toList
    ["zfs".toList, "clone".toList, option, path1.1, path2.1]]
  (wait_for_pid (env.ret tr6), tr6)

/-- The function `zfs_clone(opath, npath, oname, nname, lxcpath, snapshot)`. -/
def zfs_clone (env : Env) (tr : List Event) (opath _npath oname nname lxcpath : CStr)
    (snapshot : Bool) : Int × List Event :=
  let tr0 := tr ++ [Event.popen "zfs list".toList]
  let output0 :=
    match zfs_list_entry env opath with
    | some l => l
    | none => "tank".toList
  match index output0 ' ' with
  | none => (-1, tr0)
  | some i =>
    let output1 := output0.take i
    match rindex output1 '/' with
    | none => (-1, tr0)
    | some j =>
      let output := output1.take j
      let option := snprintf MAXPATHLEN ("-omountpoint=".toList ++ rootfs_fmt lxcpath nname)
      if option.2 < 0 ∨ option.2 ≥ (MAXPATHLEN : Int) then (-1, tr0) else
      if !snapshot then
        let tr1 := tr0 ++ [Event.fork]
        if env.ret tr1 < 0 then (-1, tr1) else
        let dev := snprintf MAXPATHLEN (output ++ "/".toList ++ nname)
        if dev.2 < 0 ∨ dev.2 ≥ (MAXPATHLEN : Int) then (wait_for_pid 1, tr1) else
        let tr2 := tr1 ++ [Event.exec "zfs".toList
          ["zfs".toList, "create".toList, option.1, dev.1]]
        (wait_for_pid (env.ret tr2), tr2)
      else
        zfs_clone_snapshot env tr0 output option.1 oname nname

/-- The function `zfs_clonepaths(orig, new, oldname, cname, oldpath, lxcpath, snap,
newsize)`. -/
def zfs_clonepaths (env : Env) (tr : List Event) (orig new : bdev)
    (oldname cname _oldpath lxcpath : CStr) (snap : Bool) (_newsize : Nat) :
    Int × bdev × List Event :=
  match orig.src, orig.dest with
  | some osrc, some _ =>
    if snap && decide (orig.type ≠ "zfs".toList) then (-1, new, tr) else
    let len := lxcpath.length + cname.length + "rootfs".length + 3
    let p := snprintf len (rootfs_fmt lxcpath cname)
    let new1 := { new with src := some p.1 }
    if p.2 < 0 ∨ p.2 ≥ (len : Int) then (-1, new1, tr) else
    let new2 := { new1 with dest := some p.1 }
    let r := zfs_clone env tr osrc p.1 oldname cname lxcpath snap
    (r.1, new2, r.2)
  | _, _ => (-1, new, tr)

/-! ## The LVM driver -/

/-- The function `lvm_detect(path)`. -/
def lvm_detect (env : Env) (path : CStr) : Bool :=
  if strncmp_eq path "lvm:".toList 4 then true else
  match env.stat path with
  | none => false
  | some st =>
    if st.mode ≠ FileType.block_device then false else
    let devp := snprintf MAXPATHLEN ("/sys/dev/block/".toList ++ (Nat.repr st.major).toList
      ++ ":".toList ++ (Nat.repr st.minor).toList ++ "/dm/uuid".toList)
    if devp.2 < 0 ∨ devp.2 ≥ (MAXPATHLEN : Int) then false else
    match env.contents devp.1 with
    | none => false
    | some c =>
      let buf := c.take 4
      if buf.length ≠ 4 ∨ ¬ strncmp_eq buf "LVM-".toList 4 then false else true

/-- The function `lvm_mount(bdev)`. -/
def lvm_mount (env : Env) (tr : List Event) (b : bdev) : Int × List Event :=
  if b.type ≠ "lvm".toList then (-22, tr) else
  match b.src, b.dest with
  | some src, some dest => mount_unknow_fs env tr src dest 0
  | _, _ => (-22, tr)

/-- The function `lvm_umount(bdev)`. -/
def lvm_umount (env : Env) (tr : List Event) (b : bdev) : Int × List Event :=
  if b.type ≠ "lvm".toList then (-22, tr) else
  match b.src, b.dest with
  | some _, some dest =>
    let tr1 := tr ++ [Event.umount dest]
    (env.ret tr1, tr1)
  | _, _ => (-22, tr)

/-- The function `lvm_create(path, size)`: the child formats `size/1000000`, splits
`path` into `.../<vg>/<lv>` and runs `lvcreate -L <sz> <vg> -n <lv>`. -/
def lvm_create (env : Env) (tr : List Event) (path : CStr) (size : Nat) :
    Int × List Event :=
  let tr1 := tr ++ [Event.fork]
  if env.ret tr1 < 0 then (-1, tr1) else
  let sz := snprintf 24 (Nat.repr (size / 1000000)).toList
  if sz.2 < 0 ∨ sz.2 ≥ 24 then (wait_for_pid 1, tr1) else
  match rindex path '/' with
  | none => (wait_for_pid 1, tr1)
  | some i =>
    let pathdup := path.take i
    let lv := path.drop (i + 1)
    match rindex pathdup '/' with
    | none => (wait_for_pid 1, tr1)
    | some j =>
      let vg := pathdup.drop (j + 1)
      let tr2 := tr1 ++ [Event.exec "lvcreate".toList
        ["lvcreate".toList, "-L".toList, sz.1, vg, "-n".toList, lv]]
      (wait_for_pid (env.ret tr2), tr2)

/-- The function `lvm_snapshot(orig, path, size)`: the child runs
`lvcreate -s -L <sz> -n <lv> <orig>`. -/
def lvm_snapshot (env : Env) (tr : List Event) (orig path : CStr) (size : Nat) :
    Int × List Event :=
  let tr1 := tr ++ [Event.fork]
  if env.ret tr1 < 0 then (-1, tr1) else
  let sz := snprintf 24 (Nat.repr (size / 1000000)).toList
  if sz.2 < 0 ∨ sz.2 ≥ 24 then (wait_for_pid 1, tr1) else
  match rindex path '/' with
  | none => (wait_for_pid 1, tr1)
  | some i =>
    let lv := path.drop (i + 1)
    let tr2 := tr1 ++ [Event.exec "lvcreate".toList
      ["lvcreate".toList, "-s".toList, "-L".toList, sz.1, "-n".toList, lv, orig]]
    (wait_for_pid (env.ret tr2), tr2)

/-- The function `is_blktype(b)`. -/
def is_blktype (b : bdev) : Bool :=
  decide (b.type = "lvm".toList)

/-- First half of `lvm_clonepaths`, up to the `mkdir_p` of the new target: the
names.  `none` when `dir_new_path` runs out of fuel; otherwise the return value
so far (negative: the function has returned with it) and the record `new`. -/
def lvm_clonepaths_names (env : Env) (tr : List Event) (fuel : Nat) (orig new : bdev)
    (oldname cname oldpath lxcpath : CStr) (snap : Bool) :
    Option (Int × bdev × List Event) :=
  match orig.src, orig.dest with
  | some osrc, some _ =>
    let named : Option (Int × bdev) :=
      if orig.type ≠ "lvm".toList then
        if snap then some (-1, new) else
        let len := "/dev/lxc/".length + cname.length + 1
        let p := snprintf len ("/dev/lxc/".toList ++ cname)
        if p.2 < 0 ∨ p.2 ≥ (len : Int) then some (-1, { new with src := some p.1 })
        else some (0, { new with src := some p.1 })
      else
        match dir_new_path fuel osrc oldname cname oldpath lxcpath with
        | none => none
        | some s => some (0, { new with src := some s })
    match named with
    | none => none
    | some (r, new1) =>
      if r < 0 then some (r, new1, tr) else
      let new2 := { new1 with data := if orig.data.isSome then orig.data else new1.data }
      let len := lxcpath.length + cname.length + "rootfs".length + 3
      let p := snprintf len (rootfs_fmt lxcpath cname)
      let new3 := { new2 with dest := some p.1 }
      if p.2 < 0 ∨ p.2 ≥ (len : Int) then some (-1, new3, tr) else
      let tr1 := tr ++ [Event.mkdir_p p.1]
      if env.ret tr1 < 0 then some (-1, new3, tr1) else some (0, new3, tr1)
  | _, _ => some (-1, new, tr)

/-- The size and filesystem type that `lvm_clonepaths` settles on (the block
`if (is_blktype(orig)) ... else ...`): return value so far, `size`, `fstype`. -/
def lvm_clonepaths_size (env : Env) (tr : List Event) (orig : bdev) (newsize : Nat) :
    Int × Nat × CStr × List Event :=
  let size := newsize
  if is_blktype orig then
    let g : Int × Nat × List Event :=
      if newsize = 0 then blk_getsize env tr (orig.src.getD []) size else (0, size, tr)
    if newsize = 0 ∧ g.1 < 0 then (-1, g.2.1, [], g.2.2) else
    let d := detect_fs env g.2.2 orig 100
    if d.1 < 0 then (-1, g.2.1, d.2.1, d.2.2) else (0, g.2.1, d.2.1, d.2.2)
  else
    (0, if newsize = 0 then 1000000000 else size, "ext3".toList, tr)

/-- The function `lvm_clonepaths(orig, new, oldname, cname, oldpath, lxcpath, snap,
newsize)`. -/
def lvm_clonepaths (env : Env) (tr : List Event) (fuel : Nat) (orig new : bdev)
    (oldname cname oldpath lxcpath : CStr) (snap : Bool) (newsize : Nat) :
    Option (Int × bdev × List Event) :=
  match lvm_clonepaths_names env tr fuel orig new oldname cname oldpath lxcpath snap with
  | none => none
  | some (r, new1, tr1) =>
    if r < 0 then some (r, new1, tr1) else
    let s := lvm_clonepaths_size env tr1 orig newsize
    if s.1 < 0 then some (-1, new1, s.2.2.2) else
    let size := s.2.1
    let fstype := s.2.2.1
    let nsrc := new1.src.getD []
    if snap then
      let c := lvm_snapshot env s.2.2.2 (orig.src.getD []) nsrc size
      if c.1 < 0 then some (-1, new1, c.2) else some (0, new1, c.2)
    else
      let c := lvm_create env s.2.2.2 nsrc size
      if c.1 < 0 then some (-1, new1, c.2) else
      let m := do_mkfs env c.2 nsrc fstype
      if m.1 < 0 then some (-1, new1, m.2) else some (0, new1, m.2)

/-! ## The btrfs driver -/

/-- The function `btrfs_detect(path)`. -/
def btrfs_detect (env : Env) (path : CStr) : Bool :=
  if !env.can_open path then false else
  if !env.space_info path then false else
  match env.stat path with
  | none => false
  | some st => if st.ino = 256 ∧ st.mode = FileType.directory then true else false

/-- The function `btrfs_mount(bdev)`. -/
def btrfs_mount (env : Env) (tr : List Event) (b : bdev) : Int × List Event :=
  if b.type ≠ "btrfs".toList then (-22, tr) else
  match b.src, b.dest with
  | some src, some dest =>
    let tr1 := tr ++ [Event.mount src dest "bind".toList MS_BIND_REC none]
    (env.ret tr1, tr1)
  | _, _ => (-22, tr)

/-- The function `btrfs_umount(bdev)`. -/
def btrfs_umount (env : Env) (tr : List Event) (b : bdev) : Int × List Event :=
  if b.type ≠ "btrfs".toList then (-22, tr) else
  match b.src, b.dest with
  | some _, some dest =>
    let tr1 := tr ++ [Event.umount dest]
    (env.ret tr1, tr1)
  | _, _ => (-22, tr)

/-- The NUL byte. -/
def NUL : Char := Char.ofNat 0

/-- The C string that starts at offset `p` of the buffer `buf`. -/
def cstr_at (buf : List Char) (p : Nat) : CStr :=
  (buf.drop p).takeWhile (fun c => c ≠ NUL)

/-- The loop `for (runp = p; runp != path; --runp) if (runp[-1] != '/') break;`
of the C library: from offset `p` back over the slashes before it. -/
def run_back (s : CStr) : Nat → Nat
  | 0 => 0
  | p + 1 => if s.get? p = some '/' then run_back s p else p + 1

/-- The loop `while (p > filename && p[-1] != '/') --p;` of the C library: from
offset `p` back to the start of the component it lies in. -/
def name_back (s : CStr) : Nat → Nat
  | 0 => 0
  | p + 1 => if s.get? p = some '/' then p + 1 else name_back s p

/-- The function `basename` of `<libgen.h>` (the C library's, which works in
place) on the buffer `buf`: the offset in `buf` of the string it returns, `none`
for the static string `"."`, and the buffer afterwards.  Trailing slashes are
cut off by a NUL written over the first of them. -/
def basename (buf : List Char) : Option Nat × List Char :=
  let s := cstr_at buf 0
  if s = [] then (none, buf) else
  match rindex s '/' with
  | none => (some 0, buf)
  | some i =>
    if i + 1 = s.length then
      let p := run_back s i
      if 0 < p then (some (name_back s (p - 1)), buf.set p NUL)
      else (some (s.length - 1), buf)
    else (some (i + 1), buf)

/-- The function `dirname` of `<libgen.h>` (the C library's, which works in
place) on the buffer `buf`: whether it returns `buf` itself (`false`: the static
string `"."`), and the buffer afterwards, cut by a NUL at the end of the
directory part. -/
def dirname (buf : List Char) : Bool × List Char :=
  let s := cstr_at buf 0
  let last_slash : Option Nat :=
    match rindex s '/' with
    | none => none
    | some l =>
      if l ≠ 0 ∧ l + 1 = s.length then
        let runp := run_back s l
        if runp ≠ 0 then rindex (s.take runp) '/' else some l
      else some l
  match last_slash with
  | none => (false, buf)
  | some l =>
    let runp := run_back s l
    if runp = 0 then
      (true, buf.set (if l = 1 then 2 else 1) NUL)
    else (true, buf.set runp NUL)

/-- The function `btrfs_subvolume_create(path)`. -/
def btrfs_subvolume_create (env : Env) (tr : List Event) (path : CStr) :
    Int × List Event :=
  match rindex path '/' with
  | none => (-1, tr)
  | some i =>
    let newfull := path.take i
    let tr1 := tr ++ [Event.open_rdonly newfull]
    if env.ret tr1 < 0 then (-1, tr1) else
    let name := (path.drop (i + 1)).take (BTRFS_SUBVOL_NAME_MAX - 1)
    let tr2 := tr1 ++ [Event.subvol_create newfull name]
    let ret := env.ret tr2
    (ret, tr2 ++ [Event.append_tmp_a ret])

/-- The function `btrfs_snapshot(orig, new)`.  The test after `rmdir` compares `errno`
with `-ENOENT`, as in the source.  `basename` and then `dirname` work on the one
buffer `newfull`: `newname` points into it and is read, at the `strncpy`, after
`dirname` has written its NUL. -/
def btrfs_snapshot (env : Env) (tr : List Event) (orig new : CStr) : Int × List Event :=
  let tr1 := tr ++ [Event.rmdir new]
  if env.ret tr1 < 0 ∧ env.errno tr1 ≠ -ENOENT then (-1, tr1) else
  let b := basename (new ++ [NUL])
  let d := dirname b.2
  let newname : CStr :=
    match b.1 with
    | none => ".".toList
    | some p => cstr_at d.2 p
  let newdir : CStr := if d.1 then cstr_at d.2 0 else ".".toList
  let tr2 := tr1 ++ [Event.open_rdonly orig]
  if env.ret tr2 < 0 then (-1, tr2) else
  let tr3 := tr2 ++ [Event.open_rdonly newdir]
  if env.ret tr3 < 0 then (-1, tr3) else
  let name := newname.take (BTRFS_SUBVOL_NAME_MAX - 1)
  let tr4 := tr3 ++ [Event.snap_create newdir orig name]
  (env.ret tr4, tr4)

/-- The function `btrfs_clonepaths(orig, new, oldname, cname, oldpath, lxcpath, snap,
newsize)`.  The test after `rmdir` compares `errno` with `-ENOENT`, as in the
source. -/
def btrfs_clonepaths (env : Env) (tr : List Event) (fuel : Nat) (orig new : bdev)
    (oldname cname oldpath lxcpath : CStr) (snap : Bool) (_newsize : Nat) :
    Option (Int × bdev × List Event) :=
  match orig.dest, orig.src with
  | some odest, some osrc =>
    let named : Option (Int × bdev) :=
      if orig.type ≠ "btrfs".toList then
        if snap then some (-1, new) else
        let len := lxcpath.length + cname.length + "rootfs".length + 3
        let p := snprintf len (rootfs_fmt lxcpath cname)
        if p.2 < 0 ∨ p.2 ≥ (len : Int) then some (-1, { new with src := some p.1 })
        else some (0, { new with src := some p.1 })
      else
        match dir_new_path fuel osrc oldname cname oldpath lxcpath with
        | none => none
        | some s => some (0, { new with src := some s })
    match named with
    | none => none
    | some (r, new1) =>
      if r < 0 then some (r, new1, tr) else
      let new2 := { new1 with dest := new1.src }
      let new3 := { new2 with data := if orig.data.isSome then orig.data else new2.data }
      let ndest := new3.dest.getD []
      if snap then
        let r := btrfs_snapshot env tr odest ndest
        some (r.1, new3, r.2)
      else
        let tr1 := tr ++ [Event.rmdir ndest]
        if env.ret tr1 < 0 ∧ env.errno tr1 ≠ -ENOENT then some (-1, new3, tr1) else
        let r := btrfs_subvolume_create env tr1 ndest
        some (r.1, new3, r.2)
  | _, _ => some (-1, new, tr)

/-! ## The overlayfs driver -/

/-- The function `overlayfs_detect(path)`. -/
def overlayfs_detect (path : CStr) : Bool :=
  if strncmp_eq path "overlayfs:".toList 10 then true else false

/-- The function `overlayfs_mount(bdev)`. -/
def overlayfs_mount (env : Env) (tr : List Event) (b : bdev) : Int × List Event :=
  if b.type ≠ "overlayfs".toList then (-22, tr) else
  match b.src, b.dest with
  | some src, some dest =>
    match index src ':' with
    | none => (-22, tr)
    | some i =>
      let lower0 := src.drop (i + 1)
      match index lower0 ':' with
      | none => (-22, tr)
      | some j =>
        let lower := lower0.take j
        let upper := lower0.drop (j + 1)
        let len := lower.length + upper.length + "upperdir=,lowerdir=".length + 1
        let options := snprintf len
          ("upperdir=".toList ++ upper ++ ",lowerdir=".toList ++ lower)
        if options.2 < 0 ∨ options.2 ≥ (len : Int) then (-1, tr) else
        let tr1 := tr ++ [Event.mount lower dest "overlayfs".toList MS_MGC_VAL
          (some options.1)]
        (env.ret tr1, tr1)
  | _, _ => (-22, tr)

/-- The function `overlayfs_umount(bdev)`. -/
def overlayfs_umount (env : Env) (tr : List Event) (b : bdev) : Int × List Event :=
  if b.type ≠ "overlayfs".toList then (-22, tr) else
  match b.src, b.dest with
  | some _, some dest =>
    let tr1 := tr ++ [Event.umount dest]
    (env.ret tr1, tr1)
  | _, _ => (-22, tr)

/-- The branch of `overlayfs_clonepaths` for an origin of type `dir`, entered
with `new->dest` set to `ndest` and created. -/
def overlayfs_clonepaths_dir (env : Env) (tr : List Event) (osrc ndest : CStr)
    (new : bdev) (snap : Bool) : Int × bdev × List Event :=
  if !snap then (-1, new, tr) else
  let delta := ndest
  if delta.length < 6 then (-22, new, tr) else
  let delta := delta.take (delta.length - 6) ++ "delta0".toList
  let tr1 := tr ++ [Event.mkdir delta]
  if env.ret tr1 < 0 then (-1, new, tr1) else
  let len := delta.length + osrc.length + 12
  let p := snprintf len ("overlayfs:".toList ++ osrc ++ ":".toList ++ delta)
  let new1 := { new with src := some p.1 }
  if p.2 < 0 ∨ p.2 ≥ (len : Int) then (-ENOMEM, new1, tr1) else (0, new1, tr1)

/-- The branch of `overlayfs_clonepaths` for an origin of type `overlayfs`.  When
`index(osrc, ':')` is `NULL` the pointer `nsrc` differs from `osrc + 10`. -/
def overlayfs_clonepaths_overlayfs (env : Env) (tr : List Event) (fuel : Nat)
    (osrc : CStr) (new : bdev) (oldname cname oldpath lxcpath : CStr) :
    Option (Int × bdev × List Event) :=
  match index osrc ':' with
  | none => some (-22, new, tr)
  | some i =>
    if i + 1 ≠ 10 then some (-22, new, tr) else
    let rest := osrc.drop (i + 1)
    match index rest ':' with
    | none => some (-22, new, tr)
    | some j =>
      let nsrc := rest.take j
      let odelta := rest.drop (j + 1)
      match dir_new_path fuel odelta oldname cname oldpath lxcpath with
      | none => none
      | some ndelta =>
        let r := do_rsync env tr odelta (some ndelta)
        if r.1 < 0 then some (-1, new, r.2) else
        let len := nsrc.length + ndelta.length + 12
        let p := snprintf len ("overlayfs:".toList ++ nsrc ++ ":".toList ++ ndelta)
        let new1 := { new with src := some p.1 }
        if p.2 < 0 ∨ p.2 ≥ (len : Int) then some (-ENOMEM, new1, r.2)
        else some (0, new1, r.2)

/-- The function `overlayfs_clonepaths(orig, new, oldname, cname, oldpath, lxcpath,
snap, newsize)`. -/
def overlayfs_clonepaths (env : Env) (tr : List Event) (fuel : Nat) (orig new : bdev)
    (oldname cname oldpath lxcpath : CStr) (snap : Bool) (_newsize : Nat) :
    Option (Int × bdev × List Event) :=
  if !snap then some (-22, new, tr) else
  match orig.src, orig.dest with
  | some osrc, some odest =>
    match dir_new_path fuel odest oldname cname oldpath lxcpath with
    | none => none
    | some ndest =>
      let new1 := { new with dest := some ndest }
      let tr1 := tr ++ [Event.mkdir_p ndest]
      if env.ret tr1 < 0 then some (-1, new1, tr1) else
      if orig.type = "dir".toList then
        some (overlayfs_clonepaths_dir env tr1 osrc ndest new1 snap)
      else if orig.type = "lvm".toList then some (-1, new1, tr1)
      else if orig.type = "overlayfs".toList then
        overlayfs_clonepaths_overlayfs env tr1 fuel osrc new1 oldname cname oldpath lxcpath
      else some (0, new1, tr1)
  | _, _ => some (-1, new, tr)

/-! ## The driver table and the constructors -/

/-- The table `bdevs[]`. -/
def bdevs : List bdev_type :=
  [ { name := "zfs".toList, ops := Driver.zfs },
    { name := "lvm".toList, ops := Driver.lvm },
    { name := "btrfs".toList, ops := Driver.btrfs },
    { name := "dir".toList, ops := Driver.dir },
    { name := "overlayfs".toList, ops := Driver.overlayfs } ]

/-- The member `ops->detect`. -/
def Driver.detect (d : Driver) (env : Env) (path : CStr) : Bool :=
  match d with
  | Driver.zfs => zfs_detect env path
  | Driver.lvm => lvm_detect env path
  | Driver.btrfs => btrfs_detect env path
  | Driver.dir => dir_detect env path
  | Driver.overlayfs => overlayfs_detect path

/-- The member `ops->mount`. -/
def Driver.mount (d : Driver) (env : Env) (tr : List Event) (b : bdev) : Int × List Event :=
  match d with
  | Driver.zfs => zfs_mount env tr b
  | Driver.lvm => lvm_mount env tr b
  | Driver.btrfs => btrfs_mount env tr b
  | Driver.dir => dir_mount env tr b
  | Driver.overlayfs => overlayfs_mount env tr b

/-- The member `ops->umount`. -/
def Driver.umount (d : Driver) (env : Env) (tr : List Event) (b : bdev) : Int × List Event :=
  match d with
  | Driver.zfs => zfs_umount env tr b
  | Driver.lvm => lvm_umount env tr b
  | Driver.btrfs => btrfs_umount env tr b
  | Driver.dir => dir_umount env tr b
  | Driver.overlayfs => overlayfs_umount env tr b

/-- The member `ops->clone_paths`. -/
def Driver.clone_paths (d : Driver) (env : Env) (tr : List Event) (fuel : Nat)
    (orig new : bdev) (oldname cname oldpath lxcpath : CStr) (snap : Bool)
    (newsize : Nat) : Option (Int × bdev × List Event) :=
  match d with
  | Driver.zfs => some (zfs_clonepaths env tr orig new oldname cname oldpath lxcpath snap newsize)
  | Driver.lvm => lvm_clonepaths env tr fuel orig new oldname cname oldpath lxcpath snap newsize
  | Driver.btrfs =>
    btrfs_clonepaths env tr fuel orig new oldname cname oldpath lxcpath snap newsize
  | Driver.dir =>
    let r := dir_clonepaths orig new oldname cname oldpath lxcpath snap newsize
    some (r.1, r.2, tr)
  | Driver.overlayfs =>
    overlayfs_clonepaths env tr fuel orig new oldname cname oldpath lxcpath snap newsize

/-- The loop of `bdev_get`: the first entry whose name is `type`. -/
def bdev_get_loop (type : CStr) : List bdev_type → Option bdev_type
  | [] => none
  | b :: rest => if b.name = type then some b else bdev_get_loop type rest

/-- The function `bdev_get(type)`. -/
def bdev_get (type : CStr) : Option bdev :=
  match bdev_get_loop type bdevs with
  | none => none
  | some b => some { ops := b.ops, type := b.name, src := none, dest := none, data := none }

/-- The loop of `bdev_init`: call `bdevs[i].ops->detect(src)` entry by entry and
stop at the first that answers nonzero.  `detect` stands for the `detect`
members of the drivers. -/
def bdev_init_loop (detect : Driver → CStr → Bool) (src : CStr) :
    List bdev_type → List Event → Option bdev_type × List Event
  | [], tr => (none, tr)
  | b :: rest, tr =>
    let tr1 := tr ++ [Event.detect b.name src]
    if detect b.ops src then (some b, tr1) else bdev_init_loop detect src rest tr1

/-- The body of `bdev_init(src, dst, data)`, for any five `detect` functions. -/
def bdev_init_with (detect : Driver → CStr → Bool) (tr : List Event) (src : CStr)
    (dst data : Option CStr) : Option bdev × List Event :=
  let r := bdev_init_loop detect src bdevs tr
  match r.1 with
  | none => (none, r.2)
  | some b => (some { ops := b.ops, type := b.name, src := some src, dest := dst, data := data },
      r.2)

/-- The function `bdev_init(src, dst, data)`: the drivers' own `detect` functions, reading
the environment. -/
def bdev_init (env : Env) (tr : List Event) (src : CStr) (dst data : Option CStr) :
    Option bdev × List Event :=
  bdev_init_with (fun d path => d.detect env path) tr src dst data

/-! ## The clone/copy orchestrator: `bdev_copy` -/

/-- The child of `bdev_copy` after the `fork`: its exit status. -/
def bdev_copy_child (env : Env) (tr : List Event) (orig new : bdev) (snap : Bool) :
    Int × List Event :=
  let tr1 := tr ++ [Event.unshare]
  if env.ret tr1 < 0 then (1, tr1) else
  if snap then (0, tr1) else
  -- If not a snapshot, copy the fs.
  let m1 := orig.ops.mount env tr1 orig
  if m1.1 < 0 then (1, m1.2) else
  let m2 := new.ops.mount env m1.2 new
  if m2.1 < 0 then (1, m2.2) else
  let r := do_rsync env m2.2 (orig.dest.getD []) new.dest
  if r.1 < 0 then (1, r.2) else (0, r.2)

/-- The part of `bdev_copy` that follows a successful `clone_paths`: the `fork`,
the child, the wait. -/
def bdev_copy_run (env : Env) (tr : List Event) (orig new : bdev) (snap : Bool) :
    Option bdev × List Event :=
  let tr1 := tr ++ [Event.fork]
  if env.ret tr1 < 0 then (none, tr1) else
  let c := bdev_copy_child env tr1 orig new snap
  if wait_for_pid c.1 < 0 then (none, c.2) else (some new, c.2)

/-- The part of `bdev_copy` up to and including `clone_paths`: `some (none, _)`
when `bdev_copy` has returned `NULL`, `some (some (orig, new), _)` when
`clone_paths` has succeeded. -/
def bdev_copy_setup (env : Env) (tr : List Event) (fuel : Nat)
    (src oldname cname oldpath lxcpath : CStr) (bdevtype : Option CStr) (snap : Bool)
    (newsize : Nat) : Option (Option (bdev × bdev) × List Event) :=
  if (strstr src oldname).isNone then some (none, tr) else
  let i := bdev_init env tr src none none
  match i.1 with
  | none => some (none, i.2)
  | some orig0 =>
    let d := snprintf MAXPATHLEN (rootfs_fmt oldpath oldname)
    if orig0.dest.isNone ∧ (d.2 < 0 ∨ d.2 ≥ (MAXPATHLEN : Int)) then some (none, i.2) else
    let orig := if orig0.dest.isNone then { orig0 with dest := some d.1 } else orig0
    match bdev_get (bdevtype.getD orig.type) with
    | none => some (none, i.2)
    | some new0 =>
      match new0.ops.clone_paths env i.2 fuel orig new0 oldname cname oldpath lxcpath snap
          newsize with
      | none => none
      | some (r, new, tr1) =>
        if r < 0 then some (none, tr1) else some (some (orig, new), tr1)

/-- The function `bdev_copy(src, oldname, cname, oldpath, lxcpath, bdevtype, snap,
bdevdata, newsize)`: the record returned (`none` for `NULL`) and the trace;
`none` when `dir_new_path` does not terminate. -/
def bdev_copy (env : Env) (tr : List Event) (fuel : Nat)
    (src oldname cname oldpath lxcpath : CStr) (bdevtype : Option CStr) (snap : Bool)
    (_bdevdata : Option CStr) (newsize : Nat) : Option (Option bdev × List Event) :=
  match bdev_copy_setup env tr fuel src oldname cname oldpath lxcpath bdevtype snap newsize with
  | none => none
  | some (none, tr1) => some (none, tr1)
  | some (some (orig, new), tr1) => some (bdev_copy_run env tr1 orig new snap)

/-! ## Concrete environments, on which the model is run -/

/-- A file system in which `/var/lib/lxc/c1/rootfs` is a directory and nothing
else exists. -/
def stat_c1 (p : CStr) : Option Stat :=
  if p = "/var/lib/lxc/c1/rootfs".toList then
    some { mode := FileType.directory, ino := 2, major := 0, minor := 0 }
  else none

/-- An environment in which every call succeeds: `open` returns descriptor 3,
every other call 0; `/var/lib/lxc/c1/rootfs` is a plain directory and there is
no zfs. -/
def env_c1 : Env :=
  { ret := fun t =>
      match t.getLast? with
      | some (Event.open_rdonly _) => 3
      | _ => 0
    errno := fun _ => 0
    blksize := fun _ => 0
    fstype := fun _ => []
    stat := stat_c1
    can_open := fun _ => false
    space_info := fun _ => false
    access := fun _ => false
    contents := fun _ => none
    lines := fun _ => none
    zfs_list := none }

/-- The environment `env_c1` in which `unshare` fails. -/
def env_unshare_fails : Env :=
  { env_c1 with
    ret := fun t => if t.getLast? = some Event.unshare then -1 else 0 }

/-- The container `c1` under `/var/lib/lxc` as a `dir` record. -/
def dir_c1 : bdev :=
  { ops := Driver.dir, type := "dir".toList, src := some "/var/lib/lxc/c1/rootfs".toList,
    dest := some "/var/lib/lxc/c1/rootfs".toList, data := none }

/-- The four probes that `bdev_init` makes for `/var/lib/lxc/c1/rootfs` in
`env_c1`. -/
def probes_c1 : List Event :=
  [ Event.detect "zfs".toList "/var/lib/lxc/c1/rootfs".toList,
    Event.detect "lvm".toList "/var/lib/lxc/c1/rootfs".toList,
    Event.detect "btrfs".toList "/var/lib/lxc/c1/rootfs".toList,
    Event.detect "dir".toList "/var/lib/lxc/c1/rootfs".toList ]

/-- A blank record of type `overlayfs`, as `bdev_get` returns it. -/
def blank_overlayfs : bdev :=
  { ops := Driver.overlayfs, type := "overlayfs".toList, src := none, dest := none,
    data := none }

/-- A `dir` record whose source and target are `/x`. -/
def dir_x : bdev :=
  { ops := Driver.dir, type := "dir".toList, src := some "/x".toList,
    dest := some "/x".toList, data := none }

/-- A blank record of type `lvm`, as `bdev_get` returns it. -/
def blank_lvm : bdev :=
  { ops := Driver.lvm, type := "lvm".toList, src := none, dest := none, data := none }

/-- The container `c1` on the logical volume `/dev/lxc/c1`. -/
def lvm_c1 : bdev :=
  { ops := Driver.lvm, type := "lvm".toList, src := some "/dev/lxc/c1".toList,
    dest := some "/var/lib/lxc/c1/rootfs".toList, data := none }

/-- The environment `env_c1` in which `BLKGETSIZE64` stores 2147483648 (2 GiB) and
`detect_fs` reads the four bytes `ext4`. -/
def env_lvm : Env :=
  { env_c1 with
    ret := fun t =>
      match t.getLast? with
      | some (Event.open_rdonly _) => 3
      | some (Event.detect_fs _ _) => 4
      | _ => 0
    blksize := fun _ => 2147483648
    fstype := fun _ => "ext4".toList }

/-- The environment `env_c1` with a zfs pool: `zfs list` prints a header and the
dataset `tank/lxc/c1`, mounted on `/var/lib/lxc/c1/rootfs`. -/
def env_zfs : Env :=
  { env_c1 with
    zfs_list := some
      [ "NAME USED AVAIL REFER MOUNTPOINT\n".toList,
        "tank/lxc/c1 1G 10G 1G /var/lib/lxc/c1/rootfs\n".toList ] }

/-- The environment `env_c1` in which every `rmdir` fails with `errno` set to
`ENOENT`: the directory to remove does not exist. -/
def env_enoent : Env :=
  { env_c1 with
    ret := fun t =>
      match t.getLast? with
      | some (Event.rmdir _) => -1
      | some (Event.open_rdonly _) => 3
      | _ => 0
    errno := fun t =>
      match t.getLast? with
      | some (Event.rmdir _) => ENOENT
      | _ => 0 }

/-- A blank record of type `btrfs`, as `bdev_get` returns it. -/
def blank_btrfs : bdev :=
  { ops := Driver.btrfs, type := "btrfs".toList, src := none, dest := none, data := none }

/-- The container `c1` as a btrfs subvolume. -/
def btrfs_c1 : bdev :=
  { ops := Driver.btrfs, type := "btrfs".toList,
    src := some "/var/lib/lxc/c1/rootfs".toList,
    dest := some "/var/lib/lxc/c1/rootfs".toList, data := none }

/-- The environment `env_zfs` in which `zfs destroy` exits with 1 (there is no
stale snapshot to destroy). -/
def env_zfs_fresh : Env :=
  { env_zfs with
    ret := fun t =>
      match t.getLast? with
      | some (Event.exec _ [_, verb, _]) => if verb = "destroy".toList then 1 else 0
      | _ => 0 }

/-- A record of type `zfs` with source and target set. -/
def zfs_c1 : bdev :=
  { ops := Driver.zfs, type := "zfs".toList, src := some "/var/lib/lxc/c1/rootfs".toList,
    dest := some "/var/lib/lxc/c1/rootfs".toList, data := none }

/-- A blank record whose type says `zfs`, handed to another driver. -/
def blank_typed_zfs (ops : Driver) : bdev :=
  { ops := ops, type := "zfs".toList, src := none, dest := none, data := none }

/-! ## Lemmas on strings -/

theorem strncmp_eq_iff (src oldpath : CStr) :
    strncmp_eq src oldpath oldpath.length = true ↔ oldpath <+: src := by
  simp only [strncmp_eq, decide_eq_true_eq, List.take_length]
  rw [List.prefix_iff_eq_take]
  exact eq_comm

theorem snprintf_fits (n : Nat) (s : CStr) (h : s.length < n) :
    snprintf n s = (s, (s.length : Int)) := by
  simp only [snprintf, Prod.mk.injEq, and_true]
  apply List.take_of_length_le
  omega

theorem strstr_none_iff (hay needle : CStr) :
    strstr hay needle = none ↔ ¬ needle <:+: hay := by
  induction hay with
  | nil =>
    by_cases h : needle = [] <;> simp [strstr, h]
  | cons c t ih =>
    by_cases h : needle <+: c :: t
    · simp [strstr, h, h.isInfix]
    · simp only [strstr, h, if_false, Option.map_eq_none', ih]
      rw [List.infix_cons_iff]
      simp [h]

theorem strstr_bound {hay needle : CStr} {k : Nat} (h : strstr hay needle = some k) :
    k + needle.length ≤ hay.length := by
  induction hay generalizing k with
  | nil =>
    by_cases hn : needle = [] <;> simp [strstr, hn] at h
    subst h; simp [hn]
  | cons c t ih =>
    by_cases hp : needle <+: c :: t
    · simp [strstr, hp] at h
      subst h
      simpa using hp.length_le
    · simp only [strstr, hp, if_false, Option.map_eq_some'] at h
      obtain ⟨k', hk', rfl⟩ := h
      have := ih hk'
      simp only [List.length_cons]
      omega

theorem replace_occurrences_skip (oldname name : CStr) (n : Nat) (s : CStr) :
    replace_occurrences oldname name n s
      = replace_occurrences oldname name 0 (s.drop n) := by
  induction s generalizing n with
  | nil => simp [replace_occurrences]
  | cons c t ih =>
    cases n with
    | zero => simp
    | succ m => simp [replace_occurrences, ih m]

theorem replace_occurrences_none {oldname name s : CStr}
    (h : strstr s oldname = none) : replace_occurrences oldname name 0 s = s := by
  induction s with
  | nil => simp [replace_occurrences]
  | cons c t ih =>
    by_cases hp : oldname <+: c :: t
    · simp [strstr, hp] at h
    · simp only [strstr, hp, if_false, Option.map_eq_none'] at h
      simp [replace_occurrences, hp, ih h]

theorem replace_occurrences_some {oldname name s : CStr} {k : Nat}
    (hne : oldname ≠ []) (h : strstr s oldname = some k) :
    replace_occurrences oldname name 0 s
      = s.take k ++ name
          ++ replace_occurrences oldname name 0 (s.drop (k + oldname.length)) := by
  induction s generalizing k with
  | nil => simp [strstr, hne] at h
  | cons c t ih =>
    by_cases hp : oldname <+: c :: t
    · simp [strstr, hp] at h
      subst h
      have hl : 0 < oldname.length := List.length_pos.mpr hne
      obtain ⟨m, hm⟩ : ∃ m, oldname.length = m + 1 := ⟨oldname.length - 1, by omega⟩
      simp only [replace_occurrences, hp, if_true, List.take_zero, List.nil_append,
        Nat.zero_add]
      rw [replace_occurrences_skip, hm]
      simp
    · simp only [strstr, hp, if_false, Option.map_eq_some'] at h
      obtain ⟨k', hk', rfl⟩ := h
      simp only [replace_occurrences, hp, if_false, ih hk']
      have : k' + 1 + oldname.length = (k' + oldname.length) + 1 := by omega
      simp [this]

theorem dir_new_path_write_eq {oldname : CStr} (name : CStr) (hne : oldname ≠ []) :
    ∀ (fuel : Nat) (s out : CStr), s.length < fuel →
      dir_new_path_write fuel s oldname name out
        = some (out ++ replace_occurrences oldname name 0 s) := by
  intro fuel
  induction fuel with
  | zero => intro s out h; omega
  | succ n ih =>
    intro s out h
    cases hs : strstr s oldname with
    | none => simp [dir_new_path_write, hs, replace_occurrences_none hs]
    | some k =>
      have hb := strstr_bound hs
      have hl : 0 < oldname.length := List.length_pos.mpr hne
      have hlen : (s.drop (k + oldname.length)).length < n := by
        simp only [List.length_drop]; omega
      simp only [dir_new_path_write, hs]
      rw [ih _ _ hlen, replace_occurrences_some hne hs]
      simp [List.append_assoc]

theorem dir_new_path_count_terminates {oldname : CStr} (name : CStr) (hne : oldname ≠ []) :
    ∀ (fuel : Nat) (s : CStr) (nlen : Int), s.length < fuel →
      ∃ n, dir_new_path_count fuel s oldname name nlen = some n := by
  intro fuel
  induction fuel with
  | zero => intro s nlen h; omega
  | succ n ih =>
    intro s nlen h
    cases hs : strstr s oldname with
    | none => exact ⟨nlen, by simp [dir_new_path_count, hs]⟩
    | some k =>
      have hb := strstr_bound hs
      have hl : 0 < oldname.length := List.length_pos.mpr hne
      have hlen : (s.drop (k + oldname.length)).length < n := by
        simp only [List.length_drop]; omega
      simp only [dir_new_path_count, hs]
      exact ih _ _ hlen

theorem dir_new_path_nlen_terminates {oldname : CStr} (hne : oldname ≠ [])
    (fuel : Nat) (src name oldpath lxcpath : CStr) (h : src.length < fuel) :
    ∃ n, dir_new_path_nlen fuel src oldname name oldpath lxcpath = some n := by
  unfold dir_new_path_nlen
  by_cases hp : strncmp_eq src oldpath oldpath.length = true
  · simp only [hp, if_true]
    apply dir_new_path_count_terminates name hne
    simp only [List.length_drop]; omega
  · simp only [hp]
    exact dir_new_path_count_terminates name hne _ _ _ h

/-- The code of `dir_new_path` computes the specified rewrite whenever `oldname`
is non-empty and the fuel exceeds the length of `src`. -/
theorem dir_new_path_eq {oldname : CStr} (hne : oldname ≠ [])
    (fuel : Nat) (src name oldpath lxcpath : CStr) (h : src.length < fuel) :
    dir_new_path fuel src oldname name oldpath lxcpath
      = some (path_rewrite src oldname name oldpath lxcpath) := by
  obtain ⟨n, hn⟩ := dir_new_path_nlen_terminates hne fuel src name oldpath lxcpath h
  unfold dir_new_path path_rewrite
  simp only [hn]
  by_cases hp : oldpath <+: src
  · have hp2 := (strncmp_eq_iff src oldpath).mpr hp
    simp only [hp2, hp, if_true]
    apply dir_new_path_write_eq name hne
    simp only [List.length_drop]; omega
  · have hp2 : ¬ strncmp_eq src oldpath oldpath.length = true :=
      fun hc => hp ((strncmp_eq_iff src oldpath).mp hc)
    simp only [hp2, hp, if_false]
    simpa using dir_new_path_write_eq name hne fuel src [] h

/-- With an empty `oldname` the counting loop of `dir_new_path` never ends:
`strstr(p, "")` is `p` itself and `p` does not advance. -/
theorem dir_new_path_count_empty (fuel : Nat) (s name : CStr) (nlen : Int) :
    dir_new_path_count fuel s [] name nlen = none := by
  induction fuel generalizing s nlen with
  | zero => rfl
  | succ n ih =>
    have h0 : strstr s [] = some 0 := by
      cases s <;> simp [strstr]
    simp [dir_new_path_count, h0, ih]

/-- With an empty `oldname` the function `dir_new_path` does not return, whatever the
fuel. -/
theorem dir_new_path_empty (fuel : Nat) (src name oldpath lxcpath : CStr) :
    dir_new_path fuel src [] name oldpath lxcpath = none := by
  unfold dir_new_path dir_new_path_nlen
  dsimp only
  split_ifs <;> simp [dir_new_path_count_empty]

/-! ## Path rewriting (C1) -/

/-- C1: for a non-empty `oldname`, `dir_new_path` terminates (any fuel above the
length of `src` suffices) and returns, when `src` begins with `oldroot`,
`newroot` followed by the remainder of `src` after `oldroot` in which every
non-overlapping, left-to-right occurrence of `oldname` is replaced by
`newname`, and otherwise `src` with every such occurrence replaced.  Only the
part of `src` after a matched `oldroot` is scanned, so an occurrence inside or
across the matched prefix is not replaced. -/
theorem C1_dir_new_path_rewrites (src oldname newname oldroot newroot : CStr)
    (fuel : Nat) (hne : oldname ≠ []) (hfuel : src.length < fuel) :
    dir_new_path fuel src oldname newname oldroot newroot
      = some (if oldroot <+: src then
          newroot ++ replace_occurrences oldname newname 0 (src.drop oldroot.length)
        else replace_occurrences oldname newname 0 src) := by
  have h := dir_new_path_eq hne fuel src newname oldroot newroot hfuel
  simpa [path_rewrite] using h

/-- C1, at a concrete input: the occurrence of `bc` that starts inside the
matched root `/ab` is left alone, the one after it is replaced. -/
theorem C1_dir_new_path_rewrites_witness :
    dir_new_path 8 "/abc/bc".toList "bc".toList "X".toList "/ab".toList "/r".toList
      = some "/rc/X".toList :=
  (C1_dir_new_path_rewrites "/abc/bc".toList "bc".toList "X".toList "/ab".toList
    "/r".toList 8 (by decide) (by decide)).trans (by decide)

/-- The scan replaces from the left and does not look again at what it has
replaced: in `aaa` the first `aa` becomes `b` and the last `a` stays; in `abab`
both occurrences of `ab` are replaced. -/
theorem replace_occurrences_examples :
    replace_occurrences "aa".toList "b".toList 0 "aaa".toList = "ba".toList
    ∧ replace_occurrences "ab".toList "ab-ab".toList 0 "abab".toList = "ab-abab-ab".toList
    ∧ dir_new_path 5 "abab".toList "ab".toList "ab-ab".toList "/x".toList "/y".toList
        = some "ab-abab-ab".toList := by
  decide

/-! ## Detection order (C2) -/

theorem bdev_init_loop_first (detect : Driver → CStr → Bool) (s : CStr) :
    ∀ (pre : List bdev_type) (d : bdev_type) (post : List bdev_type) (tr : List Event),
      (∀ x ∈ pre, detect x.ops s = false) → detect d.ops s = true →
      bdev_init_loop detect s (pre ++ d :: post) tr
        = (some d, tr ++ (pre ++ [d]).map (fun x => Event.detect x.name s)) := by
  intro pre
  induction pre with
  | nil =>
    intro d post tr _ hd
    simp [bdev_init_loop, hd]
  | cons a pre ih =>
    intro d post tr hpre hd
    have ha : detect a.ops s = false := hpre a (List.mem_cons_self _ _)
    have hrest : ∀ x ∈ pre, detect x.ops s = false :=
      fun x hx => hpre x (List.mem_cons_of_mem _ hx)
    simp [bdev_init_loop, ha, ih d post _ hrest hd]

theorem bdev_init_loop_none (detect : Driver → CStr → Bool) (s : CStr) :
    ∀ (l : List bdev_type) (tr : List Event),
      (bdev_init_loop detect s l tr).1 = none ↔ ∀ d ∈ l, detect d.ops s = false := by
  intro l
  induction l with
  | nil => intro tr; simp [bdev_init_loop]
  | cons a l ih =>
    intro tr
    by_cases ha : detect a.ops s = true
    · simp [bdev_init_loop, ha]
    · have ha' : detect a.ops s = false := by simpa using ha
      simp [bdev_init_loop, ha', ih]

/-- C2: the table is in the order zfs, lvm, btrfs, dir, overlayfs, and
`bdev_init` runs the loop below with the drivers' own `detect` functions.
Whatever the five `detect` functions answer, it returns the record of the first
driver of the table whose `detect` accepts the source, with `src`, `dest` and
`data` copied from the arguments, having probed the drivers up to that one and
no later one; it returns `NULL` exactly when no driver accepts; and `detect`
functions that differ only in what later drivers answer give the same
record. -/
theorem C2_bdev_init_first_match (detect : Driver → CStr → Bool) (tr : List Event)
    (s : CStr) (dst data : Option CStr) :
    bdevs.map (fun b => String.mk b.name) = ["zfs", "lvm", "btrfs", "dir", "overlayfs"]
    ∧ (∀ env : Env,
        bdev_init env tr s dst data
          = bdev_init_with (fun d path => d.detect env path) tr s dst data)
    ∧ (∀ (pre : List bdev_type) (d : bdev_type) (post : List bdev_type),
        bdevs = pre ++ d :: post → (∀ x ∈ pre, detect x.ops s = false) →
        detect d.ops s = true →
        bdev_init_with detect tr s dst data
            = (some { ops := d.ops, type := d.name, src := some s, dest := dst, data := data },
                tr ++ (pre ++ [d]).map (fun x => Event.detect x.name s))
          ∧ ∀ detect2 : Driver → CStr → Bool,
              (∀ x ∈ pre ++ [d], detect2 x.ops s = detect x.ops s) →
              (bdev_init_with detect2 tr s dst data).1 = (bdev_init_with detect tr s dst data).1)
    ∧ ((bdev_init_with detect tr s dst data).1 = none
        ↔ ∀ d ∈ bdevs, detect d.ops s = false) := by
  refine ⟨by decide, fun _ => rfl, ?_, ?_⟩
  · intro pre d post hb hpre hd
    have h1 : ∀ f : Driver → CStr → Bool, (∀ x ∈ pre, f x.ops s = false) →
        f d.ops s = true →
        bdev_init_with f tr s dst data
          = (some { ops := d.ops, type := d.name, src := some s, dest := dst, data := data },
              tr ++ (pre ++ [d]).map (fun x => Event.detect x.name s)) := by
      intro f hf hdf
      simp only [bdev_init_with, hb, bdev_init_loop_first f s pre d post tr hf hdf]
    refine ⟨h1 detect hpre hd, ?_⟩
    intro detect2 hagree
    have hpre2 : ∀ x ∈ pre, detect2 x.ops s = false := by
      intro x hx
      rw [hagree x (List.mem_append_left _ hx)]
      exact hpre x hx
    have hd2 : detect2 d.ops s = true := by
      rw [hagree d (List.mem_append_right _ (List.mem_singleton_self d))]
      exact hd
    rw [h1 detect hpre hd, h1 detect2 hpre2 hd2]
  · have h := bdev_init_loop_none detect s bdevs tr
    rw [← h]
    unfold bdev_init_with
    cases hr : (bdev_init_loop detect s bdevs tr).1 <;> simp [hr]

/-! ## The directory driver's clone (C3) -/

theorem rootfs_fmt_length (lxcpath cname : CStr) :
    (rootfs_fmt lxcpath cname).length = lxcpath.length + cname.length + 8 := by
  simp [rootfs_fmt]
  omega

/-- The `snprintf` of `"%s/%s/rootfs"` into a buffer of
`strlen(lxcpath) + strlen(cname) + strlen("rootfs") + 3` bytes is never cut. -/
theorem snprintf_rootfs (lxcpath cname : CStr) :
    snprintf (lxcpath.length + cname.length + "rootfs".length + 3) (rootfs_fmt lxcpath cname)
      = (rootfs_fmt lxcpath cname, ((lxcpath.length + cname.length + 8 : Nat) : Int)) := by
  have hl := rootfs_fmt_length lxcpath cname
  have h6 : "rootfs".length = 6 := by decide
  simp only [snprintf, h6, hl, Prod.mk.injEq, and_true]
  apply List.take_of_length_le
  omega

/-- C3: for an origin with source and target set, `dir_clonepaths` fails with -1
and leaves `new` as it was when a snapshot is requested; otherwise it returns 0
and sets both `new.src` and `new.dest` to `<newroot>/<newname>/rootfs`. -/
theorem C3_dir_clonepaths (orig new : bdev) (oldname cname oldpath lxcpath S T : CStr)
    (newsize : Nat) (hs : orig.src = some S) (ht : orig.dest = some T) :
    dir_clonepaths orig new oldname cname oldpath lxcpath true newsize = (-1, new)
    ∧ dir_clonepaths orig new oldname cname oldpath lxcpath false newsize
        = (0, { new with
            src := some (lxcpath ++ "/".toList ++ cname ++ "/rootfs".toList),
            dest := some (lxcpath ++ "/".toList ++ cname ++ "/rootfs".toList) }) := by
  constructor
  · simp [dir_clonepaths]
  · have h := snprintf_rootfs lxcpath cname
    simp only [dir_clonepaths, hs, ht, h]
    have h6 : "rootfs".length = 6 := by decide
    simp [rootfs_fmt, h6]
    omega

/-- C3, at the input of the spec's first two scenarios: roots `/var/lib/lxc`,
new name `c2`. -/
theorem C3_dir_clonepaths_witness :
    dir_clonepaths
        { ops := Driver.dir, type := "dir".toList, src := some "/var/lib/lxc/c1/rootfs".toList,
          dest := some "/var/lib/lxc/c1/rootfs".toList, data := none }
        { ops := Driver.dir, type := "dir".toList, src := none, dest := none, data := none }
        "c1".toList "c2".toList "/var/lib/lxc".toList "/var/lib/lxc".toList true 0
      = (-1, { ops := Driver.dir, type := "dir".toList, src := none, dest := none,
               data := none })
    ∧ dir_clonepaths
        { ops := Driver.dir, type := "dir".toList, src := some "/var/lib/lxc/c1/rootfs".toList,
          dest := some "/var/lib/lxc/c1/rootfs".toList, data := none }
        { ops := Driver.dir, type := "dir".toList, src := none, dest := none, data := none }
        "c1".toList "c2".toList "/var/lib/lxc".toList "/var/lib/lxc".toList false 0
      = (0, { ops := Driver.dir, type := "dir".toList,
              src := some "/var/lib/lxc/c2/rootfs".toList,
              dest := some "/var/lib/lxc/c2/rootfs".toList, data := none }) :=
  C3_dir_clonepaths _ _ "c1".toList "c2".toList "/var/lib/lxc".toList "/var/lib/lxc".toList
    "/var/lib/lxc/c1/rootfs".toList "/var/lib/lxc/c1/rootfs".toList 0 rfl rfl

/-! ## The name check of `bdev_copy` (C4) -/

/-- C4: when `oldname` does not occur in `src`, `bdev_copy` returns `NULL` at
once: the trace is the one it was entered with, so no driver was probed, no
directory made, no command run and no child forked; the part up to
`clone_paths` ends at the name check, before `bdev_init`, `bdev_get` and
`clone_paths`.  No fuel is needed. -/
theorem C4_bdev_copy_name_check (env : Env) (tr : List Event) (fuel : Nat)
    (src oldname cname oldpath lxcpath : CStr) (bdevtype bdevdata : Option CStr)
    (snap : Bool) (newsize : Nat) (h : ¬ oldname <:+: src) :
    bdev_copy env tr fuel src oldname cname oldpath lxcpath bdevtype snap bdevdata newsize
      = some (none, tr)
    ∧ bdev_copy_setup env tr fuel src oldname cname oldpath lxcpath bdevtype snap newsize
      = some (none, tr) := by
  have hs : strstr src oldname = none := (strstr_none_iff src oldname).mpr h
  have h2 : bdev_copy_setup env tr fuel src oldname cname oldpath lxcpath bdevtype snap newsize
      = some (none, tr) := by
    simp [bdev_copy_setup, hs]
  exact ⟨by simp [bdev_copy, h2], h2⟩

/-- C4, at the input of the spec's sixth scenario: `c1` does not occur in
`/srv/images/base`. -/
theorem C4_bdev_copy_name_check_witness :
    bdev_copy env_c1 [] 0 "/srv/images/base".toList "c1".toList "c2".toList
        "/var/lib/lxc".toList "/var/lib/lxc".toList none false none 0 = some (none, [])
    ∧ bdev_copy_setup env_c1 [] 0 "/srv/images/base".toList "c1".toList "c2".toList
        "/var/lib/lxc".toList "/var/lib/lxc".toList none false 0 = some (none, []) :=
  C4_bdev_copy_name_check env_c1 [] 0 "/srv/images/base".toList "c1".toList "c2".toList
    "/var/lib/lxc".toList "/var/lib/lxc".toList none none false 0 (by decide)

/-! ## What a successful `clone_paths` leaves in `new` -/

theorem snprintf_rootfs_fits (lxcpath cname : CStr) :
    ¬ ((snprintf (lxcpath.length + cname.length + "rootfs".length + 3)
          (rootfs_fmt lxcpath cname)).2 < 0
        ∨ (snprintf (lxcpath.length + cname.length + "rootfs".length + 3)
          (rootfs_fmt lxcpath cname)).2
            ≥ ((lxcpath.length + cname.length + "rootfs".length + 3 : Nat) : Int)) := by
  rw [snprintf_rootfs]
  have h6 : "rootfs".length = 6 := by decide
  simp only [h6]
  omega

theorem snprintf_rootfs_fst (lxcpath cname : CStr) :
    (snprintf (lxcpath.length + cname.length + "rootfs".length + 3)
      (rootfs_fmt lxcpath cname)).1 = rootfs_fmt lxcpath cname := by
  rw [snprintf_rootfs]

theorem dir_clonepaths_eq (orig new : bdev) (oldname cname oldpath lxcpath : CStr)
    (snap : Bool) (newsize : Nat) :
    dir_clonepaths orig new oldname cname oldpath lxcpath snap newsize
      = if snap then (-1, new)
        else if orig.dest.isNone || orig.src.isNone then (-1, new)
        else (0, { new with src := some (rootfs_fmt lxcpath cname),
                            dest := some (rootfs_fmt lxcpath cname) }) := by
  unfold dir_clonepaths
  simp only [snprintf_rootfs_fits, snprintf_rootfs_fst, if_false]

theorem zfs_clonepaths_eq (env : Env) (tr : List Event) (orig new : bdev)
    (oldname cname oldpath lxcpath : CStr) (snap : Bool) (newsize : Nat) :
    zfs_clonepaths env tr orig new oldname cname oldpath lxcpath snap newsize
      = match orig.src, orig.dest with
        | some osrc, some _ =>
          if snap && decide (orig.type ≠ "zfs".toList) then (-1, new, tr) else
          ((zfs_clone env tr osrc (rootfs_fmt lxcpath cname) oldname cname lxcpath snap).1,
            { new with src := some (rootfs_fmt lxcpath cname),
                       dest := some (rootfs_fmt lxcpath cname) },
            (zfs_clone env tr osrc (rootfs_fmt lxcpath cname) oldname cname lxcpath snap).2)
        | _, _ => (-1, new, tr) := by
  unfold zfs_clonepaths
  simp only [snprintf_rootfs_fits, snprintf_rootfs_fst, if_false]

theorem dir_clonepaths_dest (orig new : bdev) (oldname cname oldpath lxcpath : CStr)
    (snap : Bool) (newsize : Nat)
    (hr : 0 ≤ (dir_clonepaths orig new oldname cname oldpath lxcpath snap newsize).1) :
    ∃ N, (dir_clonepaths orig new oldname cname oldpath lxcpath snap newsize).2.dest = some N := by
  rw [dir_clonepaths_eq] at hr ⊢
  split_ifs at hr ⊢ <;> simp_all

theorem zfs_clonepaths_dest (env : Env) (tr : List Event) (orig new : bdev)
    (oldname cname oldpath lxcpath : CStr) (snap : Bool) (newsize : Nat)
    (hr : 0 ≤ (zfs_clonepaths env tr orig new oldname cname oldpath lxcpath snap newsize).1) :
    ∃ N, (zfs_clonepaths env tr orig new oldname cname oldpath lxcpath snap newsize).2.1.dest
      = some N := by
  rw [zfs_clonepaths_eq] at hr ⊢
  split at hr
  · split_ifs at hr ⊢ <;> simp_all
  · simp at hr

theorem snprintf_devlxc (cname : CStr) :
    snprintf ("/dev/lxc/".length + cname.length + 1) ("/dev/lxc/".toList ++ cname)
      = ("/dev/lxc/".toList ++ cname, ((cname.length + 9 : Nat) : Int)) := by
  have h9 : "/dev/lxc/".length = 9 := by decide
  have h9' : "/dev/lxc/".toList.length = 9 := by decide
  simp only [snprintf, h9, List.length_append, h9', Prod.mk.injEq]
  refine ⟨List.take_of_length_le ?_, by omega⟩
  simp only [List.length_append, h9']
  omega

theorem snprintf_devlxc_fits (cname : CStr) :
    ¬ ((snprintf ("/dev/lxc/".length + cname.length + 1) ("/dev/lxc/".toList ++ cname)).2 < 0
        ∨ (snprintf ("/dev/lxc/".length + cname.length + 1) ("/dev/lxc/".toList ++ cname)).2
            ≥ (("/dev/lxc/".length + cname.length + 1 : Nat) : Int)) := by
  rw [snprintf_devlxc]
  have h9 : "/dev/lxc/".length = 9 := by decide
  simp only [h9]
  omega

theorem snprintf_devlxc_fst (cname : CStr) :
    (snprintf ("/dev/lxc/".length + cname.length + 1) ("/dev/lxc/".toList ++ cname)).1
      = "/dev/lxc/".toList ++ cname := by
  rw [snprintf_devlxc]

/-- The record that the first half of `lvm_clonepaths` builds from the new
source `s`. -/
theorem lvm_clonepaths_names_eq (env : Env) (tr : List Event) (fuel : Nat) (orig new : bdev)
    (oldname cname oldpath lxcpath S T : CStr) (snap : Bool)
    (hs : orig.src = some S) (ht : orig.dest = some T) :
    lvm_clonepaths_names env tr fuel orig new oldname cname oldpath lxcpath snap
      = if orig.type ≠ "lvm".toList then
          if snap then some (-1, new, tr)
          else some (if env.ret (tr ++ [Event.mkdir_p (rootfs_fmt lxcpath cname)]) < 0
                then -1 else 0,
              { new with src := some ("/dev/lxc/".toList ++ cname),
                         data := if orig.data.isSome then orig.data else new.data,
                         dest := some (rootfs_fmt lxcpath cname) },
              tr ++ [Event.mkdir_p (rootfs_fmt lxcpath cname)])
        else
          match dir_new_path fuel S oldname cname oldpath lxcpath with
          | none => none
          | some s =>
            some (if env.ret (tr ++ [Event.mkdir_p (rootfs_fmt lxcpath cname)]) < 0
                then -1 else 0,
              { new with src := some s,
                         data := if orig.data.isSome then orig.data else new.data,
                         dest := some (rootfs_fmt lxcpath cname) },
              tr ++ [Event.mkdir_p (rootfs_fmt lxcpath cname)]) := by
  unfold lvm_clonepaths_names
  simp only [hs, ht, snprintf_rootfs_fits, snprintf_rootfs_fst, snprintf_devlxc_fits,
    snprintf_devlxc_fst, if_false]
  by_cases hty : orig.type = "lvm".toList
  · simp only [hty, ne_eq, not_true_eq_false, if_false]
    cases dir_new_path fuel S oldname cname oldpath lxcpath with
    | none => rfl
    | some s =>
      simp only []
      split_ifs <;> simp_all
  · simp only [ne_eq, hty, not_false_eq_true, if_true]
    cases snap
    · simp only [Bool.false_eq_true, if_false]
      split_ifs <;> simp_all
    · simp

/-- The second half of `lvm_clonepaths` does not touch the record. -/
theorem lvm_clonepaths_record (env : Env) (tr : List Event) (fuel : Nat) (orig new : bdev)
    (oldname cname oldpath lxcpath : CStr) (snap : Bool) (newsize : Nat)
    (r1 : Int) (new1 : bdev) (tr1 : List Event)
    (h : lvm_clonepaths_names env tr fuel orig new oldname cname oldpath lxcpath snap
      = some (r1, new1, tr1)) :
    ∃ r tr2, lvm_clonepaths env tr fuel orig new oldname cname oldpath lxcpath snap newsize
      = some (r, new1, tr2) := by
  unfold lvm_clonepaths
  simp only [h]
  split_ifs <;> exact ⟨_, _, rfl⟩

/-! ## LVM naming (C7) -/

/-- C7: for an origin with source and target set, `lvm_clonepaths` (a) rejects a
snapshot of an origin that is not lvm, with -1 and `new` untouched; (b) for an
origin that is not lvm and no snapshot, sets `new.src` to `/dev/lxc/<newname>`;
(c) for an lvm origin sets `new.src` to the path rewrite of the origin's source
(the rewrite is defined for a non-empty `oldname`; fuel above the length of
the source suffices); in (b) and (c) `new.dest` is `<newroot>/<newname>/rootfs`,
whatever the later steps of the function return. -/
theorem C7_lvm_clonepaths_names (env : Env) (tr : List Event) (fuel : Nat) (orig new : bdev)
    (oldname cname oldpath lxcpath S T : CStr) (snap : Bool) (newsize : Nat)
    (hs : orig.src = some S) (ht : orig.dest = some T) :
    (orig.type ≠ "lvm".toList → snap = true →
      lvm_clonepaths env tr fuel orig new oldname cname oldpath lxcpath snap newsize
        = some (-1, new, tr))
    ∧ (orig.type ≠ "lvm".toList → snap = false →
      ∃ r new2 tr2,
        lvm_clonepaths env tr fuel orig new oldname cname oldpath lxcpath snap newsize
          = some (r, new2, tr2)
        ∧ new2.src = some ("/dev/lxc/".toList ++ cname)
        ∧ new2.dest = some (lxcpath ++ "/".toList ++ cname ++ "/rootfs".toList))
    ∧ (orig.type = "lvm".toList → oldname ≠ [] → S.length < fuel →
      ∃ r new2 tr2,
        lvm_clonepaths env tr fuel orig new oldname cname oldpath lxcpath snap newsize
          = some (r, new2, tr2)
        ∧ new2.src = some (if oldpath <+: S then
              lxcpath ++ replace_occurrences oldname cname 0 (S.drop oldpath.length)
            else replace_occurrences oldname cname 0 S)
        ∧ new2.dest = some (lxcpath ++ "/".toList ++ cname ++ "/rootfs".toList)) := by
  have hn := lvm_clonepaths_names_eq env tr fuel orig new oldname cname oldpath lxcpath S T
    snap hs ht
  refine ⟨?_, ?_, ?_⟩
  · intro hty hsnap
    subst hsnap
    simp only [ne_eq, hty, not_false_eq_true, if_true] at hn
    simp [lvm_clonepaths, hn]
  · intro hty hsnap
    subst hsnap
    simp only [ne_eq, hty, not_false_eq_true, if_true, Bool.false_eq_true,
      if_false] at hn
    obtain ⟨r, tr2, h⟩ := lvm_clonepaths_record env tr fuel orig new oldname cname oldpath
      lxcpath false newsize _ _ _ hn
    exact ⟨r, _, tr2, h, rfl, by simp [rootfs_fmt]⟩
  · intro hty hne hfuel
    have hd := dir_new_path_eq hne fuel S cname oldpath lxcpath hfuel
    simp only [ne_eq, hty, not_true_eq_false, if_false, hd] at hn
    obtain ⟨r, tr2, h⟩ := lvm_clonepaths_record env tr fuel orig new oldname cname oldpath
      lxcpath snap newsize _ _ _ hn
    exact ⟨r, _, tr2, h, rfl, by simp [rootfs_fmt]⟩

/-- C7, at the input the claim names: an lvm origin `/dev/lxc/c1`. -/
theorem C7_lvm_clonepaths_names_witness :
    ∃ r new2 tr2,
      lvm_clonepaths env_lvm [] 12 lvm_c1 blank_lvm "c1".toList "c2".toList
          "/var/lib/lxc".toList "/var/lib/lxc".toList false 0 = some (r, new2, tr2)
      ∧ new2.src = some "/dev/lxc/c2".toList
      ∧ new2.dest = some "/var/lib/lxc/c2/rootfs".toList := by
  obtain ⟨r, new2, tr2, h, h1, h2⟩ :=
    (C7_lvm_clonepaths_names env_lvm [] 12 lvm_c1 blank_lvm "c1".toList "c2".toList
      "/var/lib/lxc".toList "/var/lib/lxc".toList "/dev/lxc/c1".toList
      "/var/lib/lxc/c1/rootfs".toList false 0 rfl rfl).2.2 rfl (by decide) (by decide)
  exact ⟨r, new2, tr2, h, h1.trans (by decide), h2.trans (by decide)⟩

/-! ## Records after a successful clone -/

theorem lvm_clonepaths_inv (env : Env) (tr : List Event) (fuel : Nat) (orig new : bdev)
    (oldname cname oldpath lxcpath : CStr) (snap : Bool) (newsize : Nat)
    (r : Int) (new2 : bdev) (tr2 : List Event)
    (h : lvm_clonepaths env tr fuel orig new oldname cname oldpath lxcpath snap newsize
      = some (r, new2, tr2)) (hr : 0 ≤ r) :
    ∃ r1 tr1, 0 ≤ r1 ∧
      lvm_clonepaths_names env tr fuel orig new oldname cname oldpath lxcpath snap
        = some (r1, new2, tr1) := by
  unfold lvm_clonepaths at h
  cases hn : lvm_clonepaths_names env tr fuel orig new oldname cname oldpath lxcpath snap with
  | none => simp [hn] at h
  | some x =>
    obtain ⟨r1, new1, tr1⟩ := x
    simp only [hn] at h
    by_cases hr1 : r1 < 0
    · simp only [hr1, if_true, Option.some.injEq, Prod.mk.injEq] at h
      omega
    · simp only [hr1, if_false] at h
      refine ⟨r1, tr1, by omega, ?_⟩
      split_ifs at h <;>
        (simp only [Option.some.injEq, Prod.mk.injEq] at h
         obtain ⟨-, rfl, -⟩ := h
         rfl)

theorem lvm_clonepaths_names_set (env : Env) (tr : List Event) (fuel : Nat) (orig new : bdev)
    (oldname cname oldpath lxcpath : CStr) (snap : Bool)
    (r1 : Int) (new1 : bdev) (tr1 : List Event)
    (h : lvm_clonepaths_names env tr fuel orig new oldname cname oldpath lxcpath snap
      = some (r1, new1, tr1)) (hr : 0 ≤ r1) :
    new1.dest = some (rootfs_fmt lxcpath cname) ∧ ∃ s, new1.src = some s := by
  cases hs : orig.src with
  | none => simp [lvm_clonepaths_names, hs] at h; omega
  | some S =>
    cases ht : orig.dest with
    | none => simp [lvm_clonepaths_names, hs, ht] at h; omega
    | some T =>
      rw [lvm_clonepaths_names_eq env tr fuel orig new oldname cname oldpath lxcpath
        S T snap hs ht] at h
      by_cases hty : orig.type = "lvm".toList
      · simp only [hty, ne_eq, not_true_eq_false, if_false] at h
        cases hd : dir_new_path fuel S oldname cname oldpath lxcpath with
        | none => simp [hd] at h
        | some s =>
          simp only [hd, Option.some.injEq, Prod.mk.injEq] at h
          obtain ⟨-, rfl, -⟩ := h
          exact ⟨rfl, _, rfl⟩
      · simp only [ne_eq, hty, not_false_eq_true, if_true] at h
        cases snap
        · simp only [Bool.false_eq_true, if_false, Option.some.injEq, Prod.mk.injEq] at h
          obtain ⟨-, rfl, -⟩ := h
          exact ⟨rfl, _, rfl⟩
        · simp only [if_true, Option.some.injEq, Prod.mk.injEq] at h
          omega

theorem btrfs_clonepaths_set (env : Env) (tr : List Event) (fuel : Nat) (orig new : bdev)
    (oldname cname oldpath lxcpath : CStr) (snap : Bool) (newsize : Nat)
    (r : Int) (new2 : bdev) (tr2 : List Event)
    (h : btrfs_clonepaths env tr fuel orig new oldname cname oldpath lxcpath snap newsize
      = some (r, new2, tr2)) (hr : 0 ≤ r) :
    ∃ s, new2.src = some s ∧ new2.dest = some s := by
  unfold btrfs_clonepaths at h
  simp only [snprintf_rootfs_fits, snprintf_rootfs_fst, if_false] at h
  cases ht : orig.dest with
  | none => simp [ht] at h; omega
  | some T =>
    cases hs : orig.src with
    | none => simp [ht, hs] at h; omega
    | some S =>
      simp only [ht, hs] at h
      by_cases hty : orig.type = "btrfs".toList
      · simp only [hty, ne_eq, not_true_eq_false, if_false] at h
        cases hd : dir_new_path fuel S oldname cname oldpath lxcpath with
        | none => simp [hd] at h
        | some s =>
          simp only [hd, lt_self_iff_false, if_false] at h
          split_ifs at h <;>
            first
              | (simp only [Option.some.injEq, Prod.mk.injEq] at h
                 obtain ⟨h1, rfl, -⟩ := h
                 first | omega | exact ⟨_, rfl, rfl⟩)
      · simp only [ne_eq, hty, not_false_eq_true, if_true] at h
        cases snap
        · simp only [Bool.false_eq_true, if_false, lt_self_iff_false] at h
          split_ifs at h <;>
            first
              | (simp only [Option.some.injEq, Prod.mk.injEq] at h
                 obtain ⟨h1, rfl, -⟩ := h
                 first | omega | exact ⟨_, rfl, rfl⟩)
        · simp only [if_true] at h
          simp at h
          omega

theorem overlayfs_clonepaths_dir_dest (env : Env) (tr : List Event) (osrc ndest : CStr)
    (new : bdev) (snap : Bool) :
    (overlayfs_clonepaths_dir env tr osrc ndest new snap).2.1.dest = new.dest := by
  unfold overlayfs_clonepaths_dir
  dsimp only
  split_ifs <;> rfl

theorem overlayfs_clonepaths_overlayfs_dest (env : Env) (tr : List Event) (fuel : Nat)
    (osrc : CStr) (new : bdev) (oldname cname oldpath lxcpath : CStr)
    (r : Int) (new2 : bdev) (tr2 : List Event)
    (h : overlayfs_clonepaths_overlayfs env tr fuel osrc new oldname cname oldpath lxcpath
      = some (r, new2, tr2)) :
    new2.dest = new.dest := by
  unfold overlayfs_clonepaths_overlayfs at h
  dsimp only at h
  split at h
  · simp only [Option.some.injEq, Prod.mk.injEq] at h
    obtain ⟨-, rfl, -⟩ := h; rfl
  · split_ifs at h
    · simp only [Option.some.injEq, Prod.mk.injEq] at h
      obtain ⟨-, rfl, -⟩ := h; rfl
    · split at h
      · simp only [Option.some.injEq, Prod.mk.injEq] at h
        obtain ⟨-, rfl, -⟩ := h; rfl
      · split at h
        · simp at h
        · split_ifs at h <;>
            (simp only [Option.some.injEq, Prod.mk.injEq] at h
             obtain ⟨-, rfl, -⟩ := h; rfl)

theorem overlayfs_clonepaths_dest (env : Env) (tr : List Event) (fuel : Nat)
    (orig new : bdev) (oldname cname oldpath lxcpath : CStr) (snap : Bool) (newsize : Nat)
    (r : Int) (new2 : bdev) (tr2 : List Event)
    (h : overlayfs_clonepaths env tr fuel orig new oldname cname oldpath lxcpath snap newsize
      = some (r, new2, tr2)) (hr : 0 ≤ r) :
    snap = true ∧ ∃ N, new2.dest = some N := by
  unfold overlayfs_clonepaths at h
  cases snap
  · simp at h; omega
  · refine ⟨rfl, ?_⟩
    simp only [Bool.not_true, Bool.false_eq_true, if_false] at h
    cases hs : orig.src with
    | none => simp [hs] at h; omega
    | some S =>
      cases ht : orig.dest with
      | none => simp [hs, ht] at h; omega
      | some T =>
        simp only [hs, ht] at h
        cases hd : dir_new_path fuel T oldname cname oldpath lxcpath with
        | none => simp [hd] at h
        | some nd =>
          simp only [hd] at h
          split_ifs at h
          · simp only [Option.some.injEq, Prod.mk.injEq] at h
            obtain ⟨-, rfl, -⟩ := h
            exact ⟨_, rfl⟩
          · have hdd := overlayfs_clonepaths_dir_dest env
              (tr ++ [Event.mkdir_p nd]) S nd { new with dest := some nd } true
            have h2 := congrArg (fun x => x.2.1.dest) (Option.some.inj h)
            simp only [hdd] at h2
            exact ⟨nd, h2.symm⟩
          · simp only [Option.some.injEq, Prod.mk.injEq] at h
            obtain ⟨-, rfl, -⟩ := h
            exact ⟨_, rfl⟩
          · exact ⟨nd, by
              rw [overlayfs_clonepaths_overlayfs_dest env _ fuel S _ oldname cname oldpath
                lxcpath r new2 tr2 h]⟩
          · simp only [Option.some.injEq, Prod.mk.injEq] at h
            obtain ⟨-, rfl, -⟩ := h
            exact ⟨_, rfl⟩

theorem clone_paths_dest (d : Driver) (env : Env) (tr : List Event) (fuel : Nat)
    (orig new : bdev) (oldname cname oldpath lxcpath : CStr) (snap : Bool) (newsize : Nat)
    (r : Int) (new2 : bdev) (tr2 : List Event)
    (h : d.clone_paths env tr fuel orig new oldname cname oldpath lxcpath snap newsize
      = some (r, new2, tr2)) (hr : 0 ≤ r) :
    ∃ N, new2.dest = some N := by
  cases d with
  | zfs =>
    have h2 := Option.some.inj h
    have h3 := zfs_clonepaths_dest env tr orig new oldname cname oldpath lxcpath snap newsize
    rw [h2] at h3
    exact h3 hr
  | lvm =>
    obtain ⟨r1, tr1, hr1, hn⟩ := lvm_clonepaths_inv env tr fuel orig new oldname cname oldpath
      lxcpath snap newsize r new2 tr2 h hr
    exact ⟨_, (lvm_clonepaths_names_set env tr fuel orig new oldname cname oldpath lxcpath
      snap r1 new2 tr1 hn hr1).1⟩
  | btrfs =>
    obtain ⟨s, -, hs⟩ := btrfs_clonepaths_set env tr fuel orig new oldname cname oldpath
      lxcpath snap newsize r new2 tr2 h hr
    exact ⟨s, hs⟩
  | dir =>
    have h2 := Option.some.inj h
    simp only [Prod.mk.injEq] at h2
    have h3 := dir_clonepaths_dest orig new oldname cname oldpath lxcpath snap newsize
    rw [h2.1, h2.2.1] at h3
    exact h3 hr
  | overlayfs =>
    exact (overlayfs_clonepaths_dest env tr fuel orig new oldname cname oldpath lxcpath snap
      newsize r new2 tr2 h hr).2

theorem bdev_copy_setup_inv (env : Env) (tr : List Event) (fuel : Nat)
    (src oldname cname oldpath lxcpath : CStr) (bdevtype : Option CStr) (snap : Bool)
    (newsize : Nat) (orig new : bdev) (tr1 : List Event)
    (h : bdev_copy_setup env tr fuel src oldname cname oldpath lxcpath bdevtype snap newsize
      = some (some (orig, new), tr1)) :
    (∃ T, orig.dest = some T) ∧ (∃ N, new.dest = some N) := by
  unfold bdev_copy_setup at h
  dsimp only at h
  by_cases h0 : (strstr src oldname).isNone = true
  · simp [h0] at h
  · rw [if_neg h0] at h
    split at h
    · simp at h
    · rename_i orig0 hinit
      by_cases h1 : orig0.dest.isNone = true ∧
          ((snprintf MAXPATHLEN (rootfs_fmt oldpath oldname)).2 < 0 ∨
            (snprintf MAXPATHLEN (rootfs_fmt oldpath oldname)).2 ≥ (MAXPATHLEN : Int))
      · simp [h1] at h
      · rw [if_neg h1] at h
        generalize hO : (if orig0.dest.isNone = true then
          { orig0 with dest := some (snprintf MAXPATHLEN (rootfs_fmt oldpath oldname)).1 }
          else orig0) = orig1 at h
        have hdest : ∃ T, orig1.dest = some T := by
          rw [← hO]
          cases hd : orig0.dest with
          | none => simp
          | some T => simp [hd]
        split at h
        · simp at h
        · rename_i new0 hget
          split at h
          · simp at h
          · rename_i r new2 tr2 hclone
            by_cases hr : r < 0
            · simp [hr] at h
            · rw [if_neg hr] at h
              simp only [Option.some.injEq, Prod.mk.injEq] at h
              obtain ⟨⟨rfl, rfl⟩, rfl⟩ := h
              exact ⟨hdest, clone_paths_dest _ _ _ _ _ _ _ _ _ _ _ _ _ _ _ hclone (by omega)⟩

/-! ## Traces -/

theorem extends_by_refl (P : Event → Bool) (tr : List Event) : extends_by P tr tr :=
  ⟨[], by simp, by simp⟩

theorem extends_by_snoc {P : Event → Bool} (tr : List Event) (e : Event) (h : P e = true) :
    extends_by P tr (tr ++ [e]) :=
  ⟨[e], rfl, by simpa using h⟩

theorem extends_by_trans {P : Event → Bool} {a b c : List Event}
    (h1 : extends_by P a b) (h2 : extends_by P b c) : extends_by P a c := by
  obtain ⟨e1, rfl, p1⟩ := h1
  obtain ⟨e2, rfl, p2⟩ := h2
  refine ⟨e1 ++ e2, by simp, ?_⟩
  intro e he
  rcases List.mem_append.mp he with h | h
  · exact p1 e h
  · exact p2 e h

theorem extends_by_mono {P Q : Event → Bool} {a b : List Event}
    (hPQ : ∀ e, P e = true → Q e = true) (h : extends_by P a b) : extends_by Q a b := by
  obtain ⟨e1, rfl, p1⟩ := h
  exact ⟨e1, rfl, fun e he => hPQ e (p1 e he)⟩

theorem extends_by_drop {P : Event → Bool} {a b : List Event} (h : extends_by P a b) :
    ∀ e ∈ b.drop a.length, P e = true := by
  obtain ⟨e1, rfl, p1⟩ := h
  simpa using p1

theorem find_fstype_cb_events (env : Env) (rootfs target : CStr) (mntopt : Nat)
    (tr : List Event) (buffer : CStr) :
    extends_by Event.is_mount tr (find_fstype_cb env rootfs target mntopt tr buffer).2 := by
  unfold find_fstype_cb
  dsimp only
  split_ifs
  · exact extends_by_refl _ _
  · exact extends_by_snoc _ _ rfl
  · exact extends_by_snoc _ _ rfl

theorem lxc_file_for_each_line_events (env : Env) (rootfs target : CStr) (mntopt : Nat) :
    ∀ (ls : List CStr) (tr : List Event),
      extends_by Event.is_mount tr
        (lxc_file_for_each_line (find_fstype_cb env rootfs target mntopt) ls tr).2 := by
  intro ls
  induction ls with
  | nil => intro tr; exact extends_by_refl _ _
  | cons l ls ih =>
    intro tr
    have h1 := find_fstype_cb_events env rootfs target mntopt tr l
    unfold lxc_file_for_each_line
    dsimp only
    split_ifs
    · exact h1
    · exact extends_by_trans h1 (ih _)

theorem mount_unknow_fs_loop_events (env : Env) (rootfs target : CStr) (mntopt : Nat) :
    ∀ (fs : List CStr) (tr : List Event),
      extends_by Event.is_mount tr (mount_unknow_fs_loop env rootfs target mntopt fs tr).2 := by
  intro fs
  induction fs with
  | nil => intro tr; exact extends_by_refl _ _
  | cons f fs ih =>
    intro tr
    unfold mount_unknow_fs_loop
    split_ifs
    · exact ih tr
    · split
      · exact extends_by_refl _ _
      · rename_i ls hls
        have h1 := lxc_file_for_each_line_events env rootfs target mntopt ls tr
        dsimp only
        split_ifs
        · exact h1
        · exact h1
        · exact extends_by_trans h1 (ih _)

theorem bind_mount_events (env : Env) (tr : List Event) (b : bdev) :
    extends_by Event.is_mount tr (dir_mount env tr b).2
    ∧ extends_by Event.is_mount tr (zfs_mount env tr b).2
    ∧ extends_by Event.is_mount tr (btrfs_mount env tr b).2 := by
  refine ⟨?_, ?_, ?_⟩
  · unfold dir_mount
    split_ifs
    · exact extends_by_refl _ _
    · split
      · exact extends_by_snoc _ _ rfl
      · exact extends_by_refl _ _
  · unfold zfs_mount
    split_ifs
    · exact extends_by_refl _ _
    · split
      · exact extends_by_snoc _ _ rfl
      · exact extends_by_refl _ _
  · unfold btrfs_mount
    split_ifs
    · exact extends_by_refl _ _
    · split
      · exact extends_by_snoc _ _ rfl
      · exact extends_by_refl _ _

theorem overlayfs_mount_events (env : Env) (tr : List Event) (b : bdev) :
    extends_by Event.is_mount tr (overlayfs_mount env tr b).2 := by
  unfold overlayfs_mount
  split_ifs
  · exact extends_by_refl _ _
  · split
    · split
      · exact extends_by_refl _ _
      · dsimp only
        split
        · exact extends_by_refl _ _
        · split_ifs
          · exact extends_by_refl _ _
          · exact extends_by_snoc _ _ rfl
    · exact extends_by_refl _ _

/-- Every driver's `mount` makes `mount` calls only. -/
theorem mount_events (d : Driver) (env : Env) (tr : List Event) (b : bdev) :
    extends_by Event.is_mount tr (d.mount env tr b).2 := by
  cases d with
  | zfs => exact (bind_mount_events env tr b).2.1
  | lvm =>
    show extends_by Event.is_mount tr (lvm_mount env tr b).2
    unfold lvm_mount
    split_ifs
    · exact extends_by_refl _ _
    · split
      · exact mount_unknow_fs_loop_events env _ _ _ _ tr
      · exact extends_by_refl _ _
  | btrfs => exact (bind_mount_events env tr b).2.2
  | dir => exact (bind_mount_events env tr b).1
  | overlayfs => exact overlayfs_mount_events env tr b


/-! ## The child of `bdev_copy` (C5) -/

theorem do_rsync_eq (env : Env) (tr : List Event) (T N : CStr) :
    do_rsync env tr T (some N)
      = if env.ret (tr ++ [Event.fork]) < 0 then (-1, tr ++ [Event.fork])
        else (wait_for_pid (env.ret (tr ++ [Event.fork,
                Event.exec "rsync".toList ["rsync".toList, "-a".toList, T ++ "/".toList, N]])),
              tr ++ [Event.fork,
                Event.exec "rsync".toList ["rsync".toList, "-a".toList, T ++ "/".toList, N]]) := by
  unfold do_rsync
  simp

theorem is_mount_not_umount (e : Event) (h : e.is_mount = true) : (!e.is_umount) = true := by
  cases e <;> simp_all [Event.is_mount, Event.is_umount]

theorem do_rsync_no_umount (env : Env) (tr : List Event) (T : CStr) (N : Option CStr) :
    extends_by (fun e => !e.is_umount) tr (do_rsync env tr T N).2 := by
  unfold do_rsync
  dsimp only
  split_ifs
  · exact extends_by_snoc _ Event.fork rfl
  · exact extends_by_trans (extends_by_snoc _ Event.fork rfl)
      (extends_by_snoc _ (Event.exec _ _) rfl)

theorem bdev_copy_run_no_umount (env : Env) (tr : List Event) (orig new : bdev)
    (snap : Bool) :
    extends_by (fun e => !e.is_umount) tr (bdev_copy_run env tr orig new snap).2 := by
  have hfork : extends_by (fun e => !e.is_umount) tr (tr ++ [Event.fork]) :=
    extends_by_snoc _ Event.fork rfl
  have hun : extends_by (fun e => !e.is_umount) tr (tr ++ [Event.fork] ++ [Event.unshare]) :=
    extends_by_trans hfork (extends_by_snoc _ Event.unshare rfl)
  have hm1 := extends_by_trans hun (extends_by_mono is_mount_not_umount
    (mount_events orig.ops env (tr ++ [Event.fork] ++ [Event.unshare]) orig))
  have hm2 := extends_by_trans hm1 (extends_by_mono is_mount_not_umount
    (mount_events new.ops env
      (orig.ops.mount env (tr ++ [Event.fork] ++ [Event.unshare]) orig).2 new))
  have hr := extends_by_trans hm2 (do_rsync_no_umount env
    (new.ops.mount env
      (orig.ops.mount env (tr ++ [Event.fork] ++ [Event.unshare]) orig).2 new).2
    (orig.dest.getD []) new.dest)
  unfold bdev_copy_run bdev_copy_child
  dsimp only
  split_ifs <;> assumption

/-- C5, as the code has it: after a successful `clone_paths`, `bdev_copy`
returns `NULL` when the `fork` fails or when the child's `unshare(CLONE_NEWNS)`
fails, whether or not a snapshot is requested, and nothing is mounted or copied.
When both succeed: for a snapshot the child makes no further call, exits with 0
and `bdev_copy` returns `new`; otherwise the child calls the `mount` of `orig`,
then the `mount` of `new`, then forks `rsync -a <orig.dest>/ <new.dest>`, it
stops at the first of these that fails, and `bdev_copy` returns `new` exactly
when none fails.  The child makes `mount` calls, a `fork` and an `exec` of
rsync and nothing else: no `umount`. -/
theorem C5_bdev_copy_after_clone (env : Env) (tr : List Event) (fuel : Nat)
    (src oldname cname oldpath lxcpath : CStr) (bdevtype bdevdata : Option CStr)
    (snap : Bool) (newsize : Nat) (orig new : bdev) (tr1 : List Event)
    (hsetup : bdev_copy_setup env tr fuel src oldname cname oldpath lxcpath bdevtype snap
      newsize = some (some (orig, new), tr1)) :
    (env.ret (tr1 ++ [Event.fork]) < 0 →
      bdev_copy env tr fuel src oldname cname oldpath lxcpath bdevtype snap bdevdata newsize
        = some (none, tr1 ++ [Event.fork]))
    ∧ (0 ≤ env.ret (tr1 ++ [Event.fork]) →
        env.ret (tr1 ++ [Event.fork, Event.unshare]) < 0 →
      bdev_copy env tr fuel src oldname cname oldpath lxcpath bdevtype snap bdevdata newsize
        = some (none, tr1 ++ [Event.fork, Event.unshare]))
    ∧ (0 ≤ env.ret (tr1 ++ [Event.fork]) →
        0 ≤ env.ret (tr1 ++ [Event.fork, Event.unshare]) → snap = true →
      bdev_copy env tr fuel src oldname cname oldpath lxcpath bdevtype snap bdevdata newsize
        = some (some new, tr1 ++ [Event.fork, Event.unshare]))
    ∧ (0 ≤ env.ret (tr1 ++ [Event.fork]) →
        0 ≤ env.ret (tr1 ++ [Event.fork, Event.unshare]) → snap = false →
      ∃ T N m1 m2 rs rx, orig.dest = some T ∧ new.dest = some N
        ∧ m1 = orig.ops.mount env (tr1 ++ [Event.fork, Event.unshare]) orig
        ∧ m2 = new.ops.mount env m1.2 new
        ∧ rs = m2.2 ++ [Event.fork]
        ∧ rx = rs ++ [Event.exec "rsync".toList
                  ["rsync".toList, "-a".toList, T ++ "/".toList, N]]
        ∧ extends_by Event.is_mount (tr1 ++ [Event.fork, Event.unshare]) m1.2
        ∧ extends_by Event.is_mount m1.2 m2.2
        ∧ bdev_copy env tr fuel src oldname cname oldpath lxcpath bdevtype snap bdevdata
            newsize
          = some (if m1.1 < 0 then (none, m1.2)
              else if m2.1 < 0 then (none, m2.2)
              else if env.ret rs < 0 then (none, rs)
              else if env.ret rx ≠ 0 then (none, rx)
              else (some new, rx)))
    ∧ (∀ res tr3,
        bdev_copy env tr fuel src oldname cname oldpath lxcpath bdevtype snap bdevdata newsize
          = some (res, tr3) →
        ∀ e ∈ tr3.drop tr1.length, e.is_umount = false) := by
  obtain ⟨⟨T, hT⟩, ⟨N, hN⟩⟩ := bdev_copy_setup_inv env tr fuel src oldname cname oldpath
    lxcpath bdevtype snap newsize orig new tr1 hsetup
  have hcopy : bdev_copy env tr fuel src oldname cname oldpath lxcpath bdevtype snap bdevdata
      newsize = some (bdev_copy_run env tr1 orig new snap) := by
    simp [bdev_copy, hsetup]
  rw [hcopy]
  refine ⟨?_, ?_, ?_, ?_, ?_⟩
  · intro hf
    simp [bdev_copy_run, hf]
  · intro hf hu
    have hf' : ¬ env.ret (tr1 ++ [Event.fork]) < 0 := by omega
    simp [bdev_copy_run, bdev_copy_child, hf', hu, wait_for_pid]
  · intro hf hu hs
    have hf' : ¬ env.ret (tr1 ++ [Event.fork]) < 0 := by omega
    have hu' : ¬ env.ret (tr1 ++ [Event.fork, Event.unshare]) < 0 := by omega
    simp [bdev_copy_run, bdev_copy_child, hf', hu', hs, wait_for_pid]
  · intro hf hu hs
    have hf' : ¬ env.ret (tr1 ++ [Event.fork]) < 0 := by omega
    have hu' : ¬ env.ret (tr1 ++ [Event.fork, Event.unshare]) < 0 := by omega
    refine ⟨T, N, _, _, _, _, hT, hN, rfl, rfl, rfl, rfl, mount_events _ _ _ _,
      mount_events _ _ _ _, ?_⟩
    simp only [bdev_copy_run, bdev_copy_child, hf', hu', hs, hT, hN, Option.getD_some,
      do_rsync_eq, List.append_assoc, List.singleton_append, if_false, Bool.false_eq_true]
    congr 1
    split_ifs <;> simp_all [wait_for_pid]
  · intro res tr3 h e he
    have h2 := congrArg Prod.snd (Option.some.inj h)
    have h3 := extends_by_drop (bdev_copy_run_no_umount env tr1 orig new snap) e
    simp only [h2] at h3
    simpa using h3 he

/-- C5, at concrete inputs: the snapshot clone of the counterexample in an
environment where every call succeeds returns the new record after `fork` and
`unshare` alone. -/
theorem C5_bdev_copy_after_clone_witness :
    bdev_copy env_c1 [] 23 "/var/lib/lxc/c1/rootfs".toList "c1".toList
        "c2".toList "/var/lib/lxc".toList "/var/lib/lxc".toList (some "overlayfs".toList)
        true none 0
      = some (some
          { ops := Driver.overlayfs, type := "overlayfs".toList,
            src := some "overlayfs:/var/lib/lxc/c1/rootfs:/var/lib/lxc/c2/delta0".toList,
            dest := some "/var/lib/lxc/c2/rootfs".toList, data := none },
          (probes_c1 ++
            [Event.mkdir_p "/var/lib/lxc/c2/rootfs".toList,
             Event.mkdir "/var/lib/lxc/c2/delta0".toList]) ++ [Event.fork, Event.unshare]) :=
  (C5_bdev_copy_after_clone env_c1 [] 23 "/var/lib/lxc/c1/rootfs".toList "c1".toList
    "c2".toList "/var/lib/lxc".toList "/var/lib/lxc".toList (some "overlayfs".toList) none
    true 0 dir_c1
    { ops := Driver.overlayfs, type := "overlayfs".toList,
      src := some "overlayfs:/var/lib/lxc/c1/rootfs:/var/lib/lxc/c2/delta0".toList,
      dest := some "/var/lib/lxc/c2/rootfs".toList, data := none }
    (probes_c1 ++
      [Event.mkdir_p "/var/lib/lxc/c2/rootfs".toList,
       Event.mkdir "/var/lib/lxc/c2/delta0".toList])
    (by decide)).2.2.1 (by decide) (by decide) rfl

/-- The plain copy of the spec's first scenario, run: the child mounts the
origin, mounts the new directory and runs rsync, in this order. -/
theorem bdev_copy_dir_run :
    bdev_copy env_c1 [] 23 "/var/lib/lxc/c1/rootfs".toList "c1".toList
        "c2".toList "/var/lib/lxc".toList "/var/lib/lxc".toList none false none 0
      = some (some
          { ops := Driver.dir, type := "dir".toList,
            src := some "/var/lib/lxc/c2/rootfs".toList,
            dest := some "/var/lib/lxc/c2/rootfs".toList, data := none },
          probes_c1 ++
            [Event.fork, Event.unshare,
             Event.mount "/var/lib/lxc/c1/rootfs".toList "/var/lib/lxc/c1/rootfs".toList
               "bind".toList MS_BIND_REC none,
             Event.mount "/var/lib/lxc/c2/rootfs".toList "/var/lib/lxc/c2/rootfs".toList
               "bind".toList MS_BIND_REC none,
             Event.fork,
             Event.exec "rsync".toList ["rsync".toList, "-a".toList,
               "/var/lib/lxc/c1/rootfs/".toList, "/var/lib/lxc/c2/rootfs".toList]]) := by
  decide

/-- C5, the claim as written fails: a snapshot clone (overlayfs on a directory)
whose `clone_paths` has succeeded and whose child cannot unshare its mount
namespace: the child exits with 1 and `bdev_copy` returns `NULL`. -/
theorem C5_counterexample :
    bdev_copy_setup env_unshare_fails [] 23 "/var/lib/lxc/c1/rootfs".toList "c1".toList
        "c2".toList "/var/lib/lxc".toList "/var/lib/lxc".toList (some "overlayfs".toList)
        true 0
      = some (some (dir_c1,
          { ops := Driver.overlayfs, type := "overlayfs".toList,
            src := some "overlayfs:/var/lib/lxc/c1/rootfs:/var/lib/lxc/c2/delta0".toList,
            dest := some "/var/lib/lxc/c2/rootfs".toList, data := none }),
          probes_c1 ++
          [Event.mkdir_p "/var/lib/lxc/c2/rootfs".toList,
           Event.mkdir "/var/lib/lxc/c2/delta0".toList])
    ∧ bdev_copy env_unshare_fails [] 23 "/var/lib/lxc/c1/rootfs".toList "c1".toList
        "c2".toList "/var/lib/lxc".toList "/var/lib/lxc".toList (some "overlayfs".toList)
        true none 0
      = some (none, probes_c1 ++
          [Event.mkdir_p "/var/lib/lxc/c2/rootfs".toList,
           Event.mkdir "/var/lib/lxc/c2/delta0".toList, Event.fork, Event.unshare]) := by
  decide

/-! ## overlayfs on a directory (C6) -/

theorem snprintf_overlayfs (lower delta : CStr) :
    snprintf (delta.length + lower.length + 12)
        ("overlayfs:".toList ++ lower ++ ":".toList ++ delta)
      = ("overlayfs:".toList ++ lower ++ ":".toList ++ delta,
          ((delta.length + lower.length + 11 : Nat) : Int)) := by
  have h10 : "overlayfs:".toList.length = 10 := by decide
  have h1 : ":".toList.length = 1 := by decide
  have hl : ("overlayfs:".toList ++ lower ++ ":".toList ++ delta).length
      = delta.length + lower.length + 11 := by
    simp only [List.length_append, h10, h1]
    omega
  simp only [snprintf, hl, Prod.mk.injEq, and_true]
  apply List.take_of_length_le
  omega

/-- C6, as the code has it: for an origin of type `dir` with source `S` and
target `T`, a snapshot requested, a non-empty `oldname` and the `mkdir_p` of the
new target succeeding, `overlayfs_clonepaths` sets `new.dest` to the path
rewrite of `T`; when that has fewer than six characters it returns -22 without
making a delta directory or setting `new.src`; when it has at least six and
the `mkdir` of the delta succeeds it returns 0, the delta being the new target
with its last six characters replaced by `delta0` and `new.src` being
`overlayfs:<S>:<delta>`. -/
theorem C6_overlayfs_clonepaths_dir (env : Env) (tr : List Event) (fuel : Nat)
    (orig new : bdev) (oldname cname oldpath lxcpath S T : CStr) (newsize : Nat)
    (hty : orig.type = "dir".toList) (hs : orig.src = some S) (ht : orig.dest = some T)
    (hne : oldname ≠ []) (hfuel : T.length < fuel)
    (hmk : 0 ≤ env.ret (tr ++ [Event.mkdir_p (path_rewrite T oldname cname oldpath lxcpath)])) :
    ((path_rewrite T oldname cname oldpath lxcpath).length < 6 →
      overlayfs_clonepaths env tr fuel orig new oldname cname oldpath lxcpath true newsize
        = some (-22,
            { new with dest := some (path_rewrite T oldname cname oldpath lxcpath) },
            tr ++ [Event.mkdir_p (path_rewrite T oldname cname oldpath lxcpath)]))
    ∧ (6 ≤ (path_rewrite T oldname cname oldpath lxcpath).length →
        0 ≤ env.ret (tr ++
          [Event.mkdir_p (path_rewrite T oldname cname oldpath lxcpath),
           Event.mkdir ((path_rewrite T oldname cname oldpath lxcpath).take
             ((path_rewrite T oldname cname oldpath lxcpath).length - 6)
             ++ "delta0".toList)]) →
      overlayfs_clonepaths env tr fuel orig new oldname cname oldpath lxcpath true newsize
        = some (0,
            { new with
              dest := some (path_rewrite T oldname cname oldpath lxcpath),
              src := some ("overlayfs:".toList ++ S ++ ":".toList
                ++ ((path_rewrite T oldname cname oldpath lxcpath).take
                    ((path_rewrite T oldname cname oldpath lxcpath).length - 6)
                  ++ "delta0".toList)) },
            tr ++
              [Event.mkdir_p (path_rewrite T oldname cname oldpath lxcpath),
               Event.mkdir ((path_rewrite T oldname cname oldpath lxcpath).take
                 ((path_rewrite T oldname cname oldpath lxcpath).length - 6)
                 ++ "delta0".toList)])) := by
  have hd := dir_new_path_eq hne fuel T cname oldpath lxcpath hfuel
  generalize path_rewrite T oldname cname oldpath lxcpath = nt at hd hmk ⊢
  have hmk' : ¬ env.ret (tr ++ [Event.mkdir_p nt]) < 0 := by omega
  constructor
  · intro hlen
    simp [overlayfs_clonepaths, hs, ht, hd, hmk', hty, overlayfs_clonepaths_dir, hlen]
  · intro hlen hmk2
    have hlen' : ¬ nt.length < 6 := by omega
    have hmk2' : ¬ env.ret (tr ++ [Event.mkdir_p nt,
        Event.mkdir (nt.take (nt.length - 6) ++ "delta0".toList)]) < 0 := by omega
    have hsn := snprintf_overlayfs S (nt.take (nt.length - 6) ++ "delta0".toList)
    simp only [overlayfs_clonepaths, hs, ht, hd, hmk', hty, overlayfs_clonepaths_dir, hlen',
      Bool.not_true, Bool.false_eq_true, if_false, List.append_assoc, List.singleton_append,
      if_true, hmk2']
    simp only [List.append_assoc] at hsn
    simp only [hsn]
    simp only [Option.some.injEq, Prod.mk.injEq]
    split_ifs with hbad
    · exfalso
      rcases hbad with h | h
      · omega
      · simp only [ge_iff_le] at h
        omega
    · simp

/-- C6, at the input of the spec's fifth scenario. -/
theorem C6_overlayfs_clonepaths_dir_witness :
    overlayfs_clonepaths env_c1 [] 23 dir_c1 blank_overlayfs "c1".toList "c2".toList
        "/var/lib/lxc".toList "/var/lib/lxc".toList true 0
      = some (0,
          { ops := Driver.overlayfs, type := "overlayfs".toList,
            src := some "overlayfs:/var/lib/lxc/c1/rootfs:/var/lib/lxc/c2/delta0".toList,
            dest := some "/var/lib/lxc/c2/rootfs".toList, data := none },
          [Event.mkdir_p "/var/lib/lxc/c2/rootfs".toList,
           Event.mkdir "/var/lib/lxc/c2/delta0".toList]) :=
  ((C6_overlayfs_clonepaths_dir env_c1 [] 23 dir_c1 blank_overlayfs "c1".toList "c2".toList
    "/var/lib/lxc".toList "/var/lib/lxc".toList "/var/lib/lxc/c1/rootfs".toList
    "/var/lib/lxc/c1/rootfs".toList 0 rfl rfl rfl (by decide) (by decide) (by decide)).2
    (by decide) (by decide)).trans (by decide)

/-- C6, the claim as written fails: a `dir` origin whose target is `/x`, a
snapshot requested and `mkdir_p` succeeding: the new target `/x` has fewer than
six characters and the call returns -22, `new.src` unset. -/
theorem C6_counterexample :
    overlayfs_clonepaths env_c1 [] 23 dir_x blank_overlayfs "c1".toList "c2".toList
        "/var/lib/lxc".toList "/var/lib/lxc".toList true 0
      = some (-22,
          { ops := Driver.overlayfs, type := "overlayfs".toList, src := none,
            dest := some "/x".toList, data := none },
          [Event.mkdir_p "/x".toList]) := by
  decide

/-! ## LVM sizing (C8) -/

/-- C8, run: a fresh volume for a directory origin with `newsize` 0 is created
with `-L 1000`, the default of 1 GB. -/
theorem lvm_clonepaths_default_size :
    lvm_clonepaths env_lvm [] 0 dir_c1 blank_lvm "c1".toList "c2".toList
        "/var/lib/lxc".toList "/var/lib/lxc".toList false 0
      = some (0,
          { ops := Driver.lvm, type := "lvm".toList, src := some "/dev/lxc/c2".toList,
            dest := some "/var/lib/lxc/c2/rootfs".toList, data := none },
          [Event.mkdir_p "/var/lib/lxc/c2/rootfs".toList, Event.fork,
           Event.exec "lvcreate".toList ["lvcreate".toList, "-L".toList, "1000".toList,
             "lxc".toList, "-n".toList, "c2".toList],
           Event.fork,
           Event.exec "mkfs".toList ["mkfs".toList, "-t".toList, "ext3".toList,
             "/dev/lxc/c2".toList]]) := by
  decide

theorem index_append_cons (a b : CStr) (c : Char) (h : c ∉ a) :
    index (a ++ c :: b) c = some a.length := by
  induction a with
  | nil => simp [index]
  | cons x a ih =>
    have hx : x ≠ c := fun e => h (by simp [e])
    have ha : c ∉ a := fun m => h (List.mem_cons_of_mem _ m)
    simp [index, hx, ih ha]

theorem rindex_none_of_not_mem (b : CStr) (c : Char) (h : c ∉ b) : rindex b c = none := by
  induction b with
  | nil => rfl
  | cons x b ih =>
    have hx : x ≠ c := fun e => h (by simp [e])
    have hb : c ∉ b := fun m => h (List.mem_cons_of_mem _ m)
    simp [rindex, ih hb, hx]

theorem rindex_append_cons (a b : CStr) (c : Char) (h : c ∉ b) :
    rindex (a ++ c :: b) c = some a.length := by
  induction a with
  | nil => simp [rindex, rindex_none_of_not_mem b c h]
  | cons x a ih => simp [rindex, ih]

/-- C9: when the line of `zfs list` found for the origin is
`<zpool>/<component> ...` (first field up to the first blank, the component
free of `/`), the formatted names fit into `MAXPATHLEN` bytes and every `fork`
succeeds, `zfs_clone` with `snapshot` set runs `zfs destroy <zpool>/<oldname>@<newname>`,
then `zfs snapshot <zpool>/<oldname>@<newname>`, and, only if that exits with 0,
`zfs clone -omountpoint=<newroot>/<newname>/rootfs <zpool>/<oldname>@<newname>
<zpool>/<newname>`.  The exit status of the destroy is not looked at; a failing
snapshot gives -1 with no clone run; otherwise the result is that of the clone
command. -/
theorem C9_zfs_clone_snapshot (env : Env) (tr : List Event)
    (opath npath oname nname lxcpath zpool comp rest : CStr)
    (hline : zfs_list_entry env opath = some (zpool ++ '/' :: (comp ++ ' ' :: rest)))
    (hz : ' ' ∉ zpool) (hc : ' ' ∉ comp) (hslash : '/' ∉ comp)
    (hopt : ("-omountpoint=".toList ++ lxcpath ++ "/".toList ++ nname
      ++ "/rootfs".toList).length < MAXPATHLEN)
    (hp1 : (zpool ++ "/".toList ++ oname ++ "@".toList ++ nname).length < MAXPATHLEN)
    (hfork : ∀ t, 0 ≤ env.ret (t ++ [Event.fork])) :
    zfs_clone env tr opath npath oname nname lxcpath true
      = if env.ret (tr ++ [Event.popen "zfs list".toList, Event.fork,
            Event.exec "zfs".toList ["zfs".toList, "destroy".toList,
              zpool ++ "/".toList ++ oname ++ "@".toList ++ nname],
            Event.fork,
            Event.exec "zfs".toList ["zfs".toList, "snapshot".toList,
              zpool ++ "/".toList ++ oname ++ "@".toList ++ nname]]) ≠ 0
        then
          (-1, tr ++ [Event.popen "zfs list".toList, Event.fork,
            Event.exec "zfs".toList ["zfs".toList, "destroy".toList,
              zpool ++ "/".toList ++ oname ++ "@".toList ++ nname],
            Event.fork,
            Event.exec "zfs".toList ["zfs".toList, "snapshot".toList,
              zpool ++ "/".toList ++ oname ++ "@".toList ++ nname]])
        else
          (wait_for_pid (env.ret (tr ++ [Event.popen "zfs list".toList, Event.fork,
            Event.exec "zfs".toList ["zfs".toList, "destroy".toList,
              zpool ++ "/".toList ++ oname ++ "@".toList ++ nname],
            Event.fork,
            Event.exec "zfs".toList ["zfs".toList, "snapshot".toList,
              zpool ++ "/".toList ++ oname ++ "@".toList ++ nname],
            Event.fork,
            Event.exec "zfs".toList ["zfs".toList, "clone".toList,
              "-omountpoint=".toList ++ lxcpath ++ "/".toList ++ nname ++ "/rootfs".toList,
              zpool ++ "/".toList ++ oname ++ "@".toList ++ nname,
              zpool ++ "/".toList ++ nname]])),
           tr ++ [Event.popen "zfs list".toList, Event.fork,
            Event.exec "zfs".toList ["zfs".toList, "destroy".toList,
              zpool ++ "/".toList ++ oname ++ "@".toList ++ nname],
            Event.fork,
            Event.exec "zfs".toList ["zfs".toList, "snapshot".toList,
              zpool ++ "/".toList ++ oname ++ "@".toList ++ nname],
            Event.fork,
            Event.exec "zfs".toList ["zfs".toList, "clone".toList,
              "-omountpoint=".toList ++ lxcpath ++ "/".toList ++ nname ++ "/rootfs".toList,
              zpool ++ "/".toList ++ oname ++ "@".toList ++ nname,
              zpool ++ "/".toList ++ nname]]) := by
  have hidx : index (zpool ++ '/' :: (comp ++ ' ' :: rest)) ' '
      = some (zpool ++ '/' :: comp).length := by
    have h1 : ' ' ∉ zpool ++ '/' :: comp := by
      simp only [List.mem_append, List.mem_cons, not_or]
      exact ⟨hz, by decide, hc⟩
    have := index_append_cons (zpool ++ '/' :: comp) rest ' ' h1
    simpa using this
  have htake : (zpool ++ '/' :: (comp ++ ' ' :: rest)).take (zpool ++ '/' :: comp).length
      = zpool ++ '/' :: comp := by
    have : zpool ++ '/' :: (comp ++ ' ' :: rest) = (zpool ++ '/' :: comp) ++ ' ' :: rest := by
      simp
    rw [this, List.take_left']
    rfl
  have hridx : rindex (zpool ++ '/' :: comp) '/' = some zpool.length :=
    rindex_append_cons zpool comp '/' hslash
  have htake2 : (zpool ++ '/' :: comp).take zpool.length = zpool := by
    rw [List.take_left']
    rfl
  have hopt' : ("-omountpoint=".toList ++ rootfs_fmt lxcpath nname).length < MAXPATHLEN := by
    simpa [rootfs_fmt, List.append_assoc] using hopt
  have hp2 : (zpool ++ "/".toList ++ nname).length < MAXPATHLEN := by
    simp only [List.length_append] at hp1 ⊢
    omega
  have hoptv : "-omountpoint=".toList ++ rootfs_fmt lxcpath nname
      = "-omountpoint=".toList ++ lxcpath ++ "/".toList ++ nname ++ "/rootfs".toList := by
    simp [rootfs_fmt, List.append_assoc]
  have hf : ∀ t, ¬ env.ret (t ++ [Event.fork]) < 0 := fun t => by
    have := hfork t
    omega
  have hfa := hf (tr ++ [Event.popen "zfs list".toList])
  have hfb := hf (tr ++ [Event.popen "zfs list".toList] ++ [Event.fork]
    ++ [Event.exec "zfs".toList ["zfs".toList, "destroy".toList,
      zpool ++ "/".toList ++ oname ++ "@".toList ++ nname]])
  have hfc := hf (tr ++ [Event.popen "zfs list".toList] ++ [Event.fork]
    ++ [Event.exec "zfs".toList ["zfs".toList, "destroy".toList,
      zpool ++ "/".toList ++ oname ++ "@".toList ++ nname]] ++ [Event.fork]
    ++ [Event.exec "zfs".toList ["zfs".toList, "snapshot".toList,
      zpool ++ "/".toList ++ oname ++ "@".toList ++ nname]])
  unfold zfs_clone
  simp only [hline, hidx, htake, hridx, htake2, snprintf_fits _ _ hopt', Bool.not_true,
    Bool.false_eq_true, if_false]
  have hlt : ¬ (((("-omountpoint=".toList ++ rootfs_fmt lxcpath nname).length : Nat) : Int) < 0
      ∨ ((("-omountpoint=".toList ++ rootfs_fmt lxcpath nname).length : Nat) : Int)
        ≥ (MAXPATHLEN : Int)) := by
    omega
  simp only [hlt, if_false]
  unfold zfs_clone_snapshot
  simp only [snprintf_fits _ _ hp1, snprintf_fits _ _ hp2]
  have hlt1 : ¬ ((((zpool ++ "/".toList ++ oname ++ "@".toList ++ nname).length : Nat) : Int) < 0
      ∨ (((zpool ++ "/".toList ++ oname ++ "@".toList ++ nname).length : Nat) : Int)
        ≥ (MAXPATHLEN : Int)) := by
    omega
  simp only [hlt1, if_false, hfa, hfb, hfc, hoptv]
  simp only [wait_for_pid, List.append_assoc, List.singleton_append, List.cons_append,
    List.nil_append]
  split_ifs <;> simp_all

/-- C9, at a concrete input: the dataset `tank/lxc/c1`, cloned to `c2`; the
destroy of the (absent) stale snapshot fails and the sequence goes on. -/
theorem C9_zfs_clone_snapshot_witness :
    zfs_clone env_zfs_fresh [] "/var/lib/lxc/c1/rootfs".toList "/var/lib/lxc/c2/rootfs".toList
        "c1".toList "c2".toList "/var/lib/lxc".toList true
      = (0, [Event.popen "zfs list".toList, Event.fork,
          Event.exec "zfs".toList ["zfs".toList, "destroy".toList, "tank/lxc/c1@c2".toList],
          Event.fork,
          Event.exec "zfs".toList ["zfs".toList, "snapshot".toList, "tank/lxc/c1@c2".toList],
          Event.fork,
          Event.exec "zfs".toList ["zfs".toList, "clone".toList,
            "-omountpoint=/var/lib/lxc/c2/rootfs".toList, "tank/lxc/c1@c2".toList,
            "tank/lxc/c2".toList]])
    ∧ env_zfs_fresh.ret [Event.popen "zfs list".toList, Event.fork,
          Event.exec "zfs".toList ["zfs".toList, "destroy".toList, "tank/lxc/c1@c2".toList]]
        = 1 :=
  ⟨(C9_zfs_clone_snapshot env_zfs_fresh [] "/var/lib/lxc/c1/rootfs".toList
      "/var/lib/lxc/c2/rootfs".toList "c1".toList "c2".toList "/var/lib/lxc".toList
      "tank/lxc".toList "c1".toList "1G 10G 1G /var/lib/lxc/c1/rootfs\n".toList
      (by decide) (by decide) (by decide) (by decide) (by decide) (by decide)
      (fun t => by simp [env_zfs_fresh])).trans (by decide),
   by decide⟩

/-! ## `rmdir` before the btrfs ioctls (C10) -/

/-- C10, what the code does: the test after `rmdir` is `errno != -ENOENT`, and
`errno` is `ENOENT`, not `-ENOENT`, when the directory does not exist.  So when
the `rmdir` of the new target fails with `ENOENT`, `btrfs_snapshot` returns -1
with the `rmdir` as its only call, and a `btrfs_clonepaths` without snapshot
returns -1 with the `rmdir` as its last call: neither reaches its ioctl. -/
theorem C10_rmdir_enoent_aborts (env : Env) (tr : List Event) (fuel : Nat)
    (orig new : bdev) (oldname cname oldpath lxcpath S T p : CStr) (newsize : Nat)
    (hs : orig.src = some S) (ht : orig.dest = some T)
    (hret : env.ret (tr ++ [Event.rmdir p]) < 0)
    (herrno : env.errno (tr ++ [Event.rmdir p]) = ENOENT) :
    btrfs_snapshot env tr T p = (-1, tr ++ [Event.rmdir p])
    ∧ ∀ r new2 tr2,
        btrfs_clonepaths env tr fuel orig new oldname cname oldpath lxcpath false newsize
          = some (r, new2, tr2) →
        new2.dest = some p → r = -1 ∧ tr2 = tr ++ [Event.rmdir p] := by
  have hne : env.errno (tr ++ [Event.rmdir p]) ≠ -ENOENT := by
    rw [herrno]; decide
  constructor
  · simp [btrfs_snapshot, hret, hne]
  · intro r new2 tr2 h hp
    unfold btrfs_clonepaths at h
    simp only [snprintf_rootfs_fits, snprintf_rootfs_fst, if_false, Bool.false_eq_true,
      hs, ht] at h
    split at h
    · simp at h
    · rename_i r1 new1 hnamed
      by_cases hr1 : r1 < 0
      · simp only [hr1, if_true, Option.some.injEq, Prod.mk.injEq] at h
        obtain ⟨rfl, rfl, rfl⟩ := h
        exfalso
        split_ifs at hnamed
        · simp only [Option.some.injEq, Prod.mk.injEq] at hnamed
          omega
        · split at hnamed
          · simp at hnamed
          · simp only [Option.some.injEq, Prod.mk.injEq] at hnamed
            omega
      · simp only [hr1, if_false] at h
        have hdest : new1.src.getD [] = p := by
          split_ifs at h <;>
            (simp only [Option.some.injEq, Prod.mk.injEq] at h
             obtain ⟨-, rfl, -⟩ := h
             simp only at hp
             simp [hp])
        simp only [hdest, hret, hne, ne_eq, not_false_eq_true, and_self, if_true,
          Option.some.injEq, Prod.mk.injEq] at h
        exact ⟨h.1.symm, h.2.2.symm⟩

/-- C10, at the failing input: a plain (non-snapshot) btrfs clone of a `dir`
container whose new target `/var/lib/lxc/c2/rootfs` does not exist yet: `rmdir`
fails with `ENOENT` and the clone is given up before the subvolume is
created.  The same for the snapshot of a btrfs container. -/
theorem C10_rmdir_enoent_aborts_witness :
    btrfs_clonepaths env_enoent [] 0 dir_c1 blank_btrfs "c1".toList "c2".toList
        "/var/lib/lxc".toList "/var/lib/lxc".toList false 0
      = some (-1,
          { ops := Driver.btrfs, type := "btrfs".toList,
            src := some "/var/lib/lxc/c2/rootfs".toList,
            dest := some "/var/lib/lxc/c2/rootfs".toList, data := none },
          [Event.rmdir "/var/lib/lxc/c2/rootfs".toList])
    ∧ btrfs_clonepaths env_enoent [] 23 btrfs_c1 blank_btrfs "c1".toList "c2".toList
        "/var/lib/lxc".toList "/var/lib/lxc".toList true 0
      = some (-1,
          { ops := Driver.btrfs, type := "btrfs".toList,
            src := some "/var/lib/lxc/c2/rootfs".toList,
            dest := some "/var/lib/lxc/c2/rootfs".toList, data := none },
          [Event.rmdir "/var/lib/lxc/c2/rootfs".toList])
    ∧ btrfs_snapshot env_enoent [] "/var/lib/lxc/c1/rootfs".toList
        "/var/lib/lxc/c2/rootfs".toList
      = (-1, [Event.rmdir "/var/lib/lxc/c2/rootfs".toList]) :=
  ⟨by decide, by decide,
   (C10_rmdir_enoent_aborts env_enoent [] 0 dir_c1 blank_btrfs "c1".toList "c2".toList
      "/var/lib/lxc".toList "/var/lib/lxc".toList "/var/lib/lxc/c1/rootfs".toList
      "/var/lib/lxc/c1/rootfs".toList "/var/lib/lxc/c2/rootfs".toList 0 rfl rfl
      (by decide) (by decide)).1⟩

/-- The names that `btrfs_snapshot` hands to the snapshot ioctl.  For
`/var/lib/lxc/c2/rootfs` the directory is `/var/lib/lxc/c2` and the name is
`rootfs`.  For `/b`, directly under the root, `dirname` cuts the buffer right
after the first `/`, which is where `newname` points: the name is empty. -/
theorem btrfs_snapshot_names :
    btrfs_snapshot env_c1 [] "/o".toList "/var/lib/lxc/c2/rootfs".toList
      = (0, [Event.rmdir "/var/lib/lxc/c2/rootfs".toList, Event.open_rdonly "/o".toList,
          Event.open_rdonly "/var/lib/lxc/c2".toList,
          Event.snap_create "/var/lib/lxc/c2".toList "/o".toList "rootfs".toList])
    ∧ btrfs_snapshot env_c1 [] "/o".toList "/b".toList
      = (0, [Event.rmdir "/b".toList, Event.open_rdonly "/o".toList,
          Event.open_rdonly "/".toList,
          Event.snap_create "/".toList "/o".toList []]) := by
  decide

/-! ## The guards of `mount` and `umount` (C11) -/

/-- C11: for each entry of the driver table, the driver's `mount` and `umount`
return -22 and make no call at all (the trace is left as it was) when the
record's type is not the entry's name, or its source is unset, or its target
is unset. -/
theorem C11_mount_umount_guard (env : Env) (tr : List Event) (b : bdev) (bt : bdev_type)
    (hbt : bt ∈ bdevs) (h : b.type ≠ bt.name ∨ b.src = none ∨ b.dest = none) :
    bt.ops.mount env tr b = (-22, tr) ∧ bt.ops.umount env tr b = (-22, tr) := by
  simp only [bdevs, List.mem_cons, List.mem_singleton, List.not_mem_nil, or_false] at hbt
  rcases hbt with rfl | rfl | rfl | rfl | rfl
  all_goals
    simp only [Driver.mount, Driver.umount, zfs_mount, zfs_umount, lvm_mount, lvm_umount,
      btrfs_mount, btrfs_umount, dir_mount, dir_umount, overlayfs_mount, overlayfs_umount]
    rcases h with h | h | h
    · dsimp only at h
      simp only [ne_eq, h, not_false_eq_true, if_true, and_self]
    · simp only [h]
      constructor <;> split_ifs <;> rfl
    · simp only [h]
      constructor <;> split_ifs <;> first | rfl | (cases b.src <;> rfl)

/-- C11, at concrete inputs: the `dir` driver given a record of type `zfs`, and
the `overlayfs` driver given a blank record of its own type. -/
theorem C11_mount_umount_guard_witness :
    (Driver.dir.mount env_c1 [] zfs_c1 = (-22, [])
      ∧ Driver.dir.umount env_c1 [] zfs_c1 = (-22, []))
    ∧ (Driver.overlayfs.mount env_c1 [] blank_overlayfs = (-22, [])
      ∧ Driver.overlayfs.umount env_c1 [] blank_overlayfs = (-22, [])) :=
  ⟨C11_mount_umount_guard env_c1 [] zfs_c1
      { name := "dir".toList, ops := Driver.dir } (by decide) (Or.inl (by decide)),
   C11_mount_umount_guard env_c1 [] blank_overlayfs
      { name := "overlayfs".toList, ops := Driver.overlayfs } (by decide)
      (Or.inr (Or.inl rfl))⟩

/-! ## The type of the new record in `clone_paths` (C12) -/

theorem dir_clonepaths_new_type (orig new : bdev) (oldname cname oldpath lxcpath t : CStr)
    (snap : Bool) (newsize : Nat) :
    dir_clonepaths orig { new with type := t } oldname cname oldpath lxcpath snap newsize
      = ((dir_clonepaths orig new oldname cname oldpath lxcpath snap newsize).1,
         { (dir_clonepaths orig new oldname cname oldpath lxcpath snap newsize).2 with
           type := t }) := by
  simp only [dir_clonepaths_eq]
  split_ifs <;> rfl

theorem zfs_clonepaths_new_type (env : Env) (tr : List Event) (orig new : bdev)
    (oldname cname oldpath lxcpath t : CStr) (snap : Bool) (newsize : Nat) :
    zfs_clonepaths env tr orig { new with type := t } oldname cname oldpath lxcpath snap newsize
      = ((zfs_clonepaths env tr orig new oldname cname oldpath lxcpath snap newsize).1,
         { (zfs_clonepaths env tr orig new oldname cname oldpath lxcpath snap newsize).2.1 with
           type := t },
         (zfs_clonepaths env tr orig new oldname cname oldpath lxcpath snap newsize).2.2) := by
  simp only [zfs_clonepaths_eq]
  split
  · split_ifs <;> rfl
  · rfl

theorem lvm_clonepaths_names_new_type (env : Env) (tr : List Event) (fuel : Nat)
    (orig new : bdev) (oldname cname oldpath lxcpath t : CStr) (snap : Bool) :
    lvm_clonepaths_names env tr fuel orig { new with type := t } oldname cname oldpath lxcpath
        snap
      = (lvm_clonepaths_names env tr fuel orig new oldname cname oldpath lxcpath snap).map
          (fun x => (x.1, { x.2.1 with type := t }, x.2.2)) := by
  cases hs : orig.src with
  | none => simp [lvm_clonepaths_names, hs]
  | some S =>
    cases ht : orig.dest with
    | none => simp [lvm_clonepaths_names, hs, ht]
    | some T =>
      rw [lvm_clonepaths_names_eq env tr fuel orig _ oldname cname oldpath lxcpath S T snap
        hs ht,
        lvm_clonepaths_names_eq env tr fuel orig _ oldname cname oldpath lxcpath S T snap
        hs ht]
      split_ifs <;>
        first
          | rfl
          | (cases dir_new_path fuel S oldname cname oldpath lxcpath <;> rfl)

theorem lvm_clonepaths_new_type (env : Env) (tr : List Event) (fuel : Nat)
    (orig new : bdev) (oldname cname oldpath lxcpath t : CStr) (snap : Bool) (newsize : Nat) :
    lvm_clonepaths env tr fuel orig { new with type := t } oldname cname oldpath lxcpath snap
        newsize
      = (lvm_clonepaths env tr fuel orig new oldname cname oldpath lxcpath snap newsize).map
          (fun x => (x.1, { x.2.1 with type := t }, x.2.2)) := by
  unfold lvm_clonepaths
  rw [lvm_clonepaths_names_new_type]
  cases lvm_clonepaths_names env tr fuel orig new oldname cname oldpath lxcpath snap with
  | none => rfl
  | some x =>
    obtain ⟨r1, new1, tr1⟩ := x
    simp only [Option.map_some']
    split_ifs <;> rfl

theorem btrfs_clonepaths_new_type (env : Env) (tr : List Event) (fuel : Nat)
    (orig new : bdev) (oldname cname oldpath lxcpath t : CStr) (snap : Bool) (newsize : Nat) :
    btrfs_clonepaths env tr fuel orig { new with type := t } oldname cname oldpath lxcpath snap
        newsize
      = (btrfs_clonepaths env tr fuel orig new oldname cname oldpath lxcpath snap newsize).map
          (fun x => (x.1, { x.2.1 with type := t }, x.2.2)) := by
  unfold btrfs_clonepaths
  simp only [snprintf_rootfs_fits, snprintf_rootfs_fst, if_false]
  cases orig.dest with
  | none => rfl
  | some T =>
    cases orig.src with
    | none => rfl
    | some S =>
      by_cases hty : orig.type = "btrfs".toList
      · simp only [hty, ne_eq, not_true_eq_false, if_false]
        cases dir_new_path fuel S oldname cname oldpath lxcpath with
        | none => rfl
        | some s0 =>
          simp only [lt_self_iff_false, if_false]
          split_ifs <;> rfl
      · simp only [ne_eq, hty, not_false_eq_true, if_true]
        cases snap
        · simp only [Bool.false_eq_true, if_false, lt_self_iff_false]
          split_ifs <;> rfl
        · rfl

theorem overlayfs_clonepaths_new_type (env : Env) (tr : List Event) (fuel : Nat)
    (orig new : bdev) (oldname cname oldpath lxcpath t : CStr) (snap : Bool) (newsize : Nat) :
    overlayfs_clonepaths env tr fuel orig { new with type := t } oldname cname oldpath lxcpath
        snap newsize
      = (overlayfs_clonepaths env tr fuel orig new oldname cname oldpath lxcpath snap
          newsize).map (fun x => (x.1, { x.2.1 with type := t }, x.2.2)) := by
  unfold overlayfs_clonepaths
  cases snap
  · rfl
  · simp only [Bool.not_true, Bool.false_eq_true, if_false]
    cases orig.src with
    | none => rfl
    | some S =>
      cases orig.dest with
      | none => rfl
      | some T =>
        try dsimp only
        cases dir_new_path fuel T oldname cname oldpath lxcpath with
        | none => rfl
        | some nd =>
          try dsimp only
          split_ifs
          · rfl
          · unfold overlayfs_clonepaths_dir
            try dsimp only
            split_ifs <;> rfl
          · rfl
          · unfold overlayfs_clonepaths_overlayfs
            cases index S ':' with
            | none => rfl
            | some i =>
              try dsimp only
              split_ifs
              · rfl
              · cases index (List.drop (i + 1) S) ':' with
                | none => rfl
                | some j =>
                  try dsimp only
                  cases dir_new_path fuel (List.drop (j + 1) (List.drop (i + 1) S)) oldname
                      cname oldpath lxcpath with
                  | none => rfl
                  | some ndelta =>
                    try dsimp only
                    split_ifs <;> rfl
          · rfl

/-- C12, as the code has it: no `clone_paths` looks at the type of the record
`new`.  For each of the five drivers, called with a `new` whose type is `t`
(whatever `t` is) it returns the same value and makes the same calls as with
any other type, and it leaves in `new` the same fields, the type staying
`t`. -/
theorem C12_clone_paths_ignores_new_type (d : Driver) (env : Env) (tr : List Event)
    (fuel : Nat) (orig new : bdev) (oldname cname oldpath lxcpath t : CStr) (snap : Bool)
    (newsize : Nat) :
    d.clone_paths env tr fuel orig { new with type := t } oldname cname oldpath lxcpath snap
        newsize
      = (d.clone_paths env tr fuel orig new oldname cname oldpath lxcpath snap newsize).map
          (fun x => (x.1, { x.2.1 with type := t }, x.2.2)) := by
  cases d with
  | zfs =>
    simp only [Driver.clone_paths, Option.map_some']
    rw [zfs_clonepaths_new_type]
  | lvm =>
    exact lvm_clonepaths_new_type env tr fuel orig new oldname cname oldpath lxcpath t
      snap newsize
  | btrfs =>
    exact btrfs_clonepaths_new_type env tr fuel orig new oldname cname oldpath
      lxcpath t snap newsize
  | dir =>
    simp only [Driver.clone_paths, Option.map_some']
    rw [dir_clonepaths_new_type]
  | overlayfs =>
    exact overlayfs_clonepaths_new_type env tr fuel orig new oldname cname
      oldpath lxcpath t snap newsize

/-- C12, the claim as written fails: the `dir` driver's `clone_paths`, given a
new record of type `zfs` and no snapshot, returns 0, not -22, and fills the
record. -/
theorem C12_counterexample :
    Driver.dir.clone_paths env_c1 [] 0 dir_c1 (blank_typed_zfs Driver.dir) "c1".toList
        "c2".toList "/var/lib/lxc".toList "/var/lib/lxc".toList false 0
      = some (0,
          { ops := Driver.dir, type := "zfs".toList,
            src := some "/var/lib/lxc/c2/rootfs".toList,
            dest := some "/var/lib/lxc/c2/rootfs".toList, data := none },
          []) := by
  decide

/-! ## Source and target after a successful `clone_paths` (C13) -/

theorem overlayfs_clonepaths_dir_src (env : Env) (tr : List Event) (osrc ndest : CStr)
    (new : bdev) (snap : Bool)
    (h : (overlayfs_clonepaths_dir env tr osrc ndest new snap).1 = 0) :
    ∃ rest, (overlayfs_clonepaths_dir env tr osrc ndest new snap).2.1.src
      = some ("overlayfs:".toList ++ rest) := by
  unfold overlayfs_clonepaths_dir at h ⊢
  simp only [snprintf_overlayfs] at h ⊢
  split_ifs at h ⊢ <;> first
    | (simp at h; done)
    | (simp [ENOMEM] at h; done)
    | exact ⟨_, by simp [List.append_assoc]; rfl⟩

theorem snprintf_overlayfs_lower_first (a b : CStr) :
    (snprintf (a.length + b.length + 12) ("overlayfs:".toList ++ a ++ ":".toList ++ b)).1
      = "overlayfs:".toList ++ (a ++ ":".toList ++ b) := by
  have h10 : "overlayfs:".toList.length = 10 := by decide
  have hc : ":".toList.length = 1 := by decide
  simp only [snprintf, List.append_assoc]
  apply List.take_of_length_le
  simp only [List.length_append, h10, hc]
  omega

theorem overlayfs_clonepaths_overlayfs_src (env : Env) (tr : List Event) (fuel : Nat)
    (osrc : CStr) (new : bdev) (oldname cname oldpath lxcpath : CStr)
    (new2 : bdev) (tr2 : List Event)
    (h : overlayfs_clonepaths_overlayfs env tr fuel osrc new oldname cname oldpath lxcpath
      = some (0, new2, tr2)) :
    ∃ rest, new2.src = some ("overlayfs:".toList ++ rest) := by
  unfold overlayfs_clonepaths_overlayfs at h
  dsimp only at h
  split at h
  · simp at h
  · split_ifs at h
    · simp at h
    · split at h
      · simp at h
      · split at h
        · simp at h
        · rename_i j hj ndelta hnd
          split_ifs at h with h1 h2
          · simp at h
          · simp [ENOMEM] at h
          · simp only [Option.some.injEq, Prod.mk.injEq, true_and] at h
            obtain ⟨rfl, -⟩ := h
            exact ⟨_, congrArg some (snprintf_overlayfs_lower_first _ _)⟩

/-- Where the claim C13 holds: for an origin with source and target set, a
`clone_paths` that returns 0 leaves both `new.src` and `new.dest` set, for the
drivers zfs, lvm, btrfs and dir, and for overlayfs when the origin's type is
`dir` or `overlayfs`, in which case `new.src` begins with `overlayfs:`. -/
theorem clone_paths_sets_source_and_target (d : Driver) (env : Env) (tr : List Event)
    (fuel : Nat) (orig new : bdev) (oldname cname oldpath lxcpath S T : CStr) (snap : Bool)
    (newsize : Nat) (new2 : bdev) (tr2 : List Event)
    (hs : orig.src = some S) (ht : orig.dest = some T)
    (h : d.clone_paths env tr fuel orig new oldname cname oldpath lxcpath snap newsize
      = some (0, new2, tr2)) :
    (∃ t, new2.dest = some t)
    ∧ (d ≠ Driver.overlayfs → ∃ s, new2.src = some s)
    ∧ (d = Driver.overlayfs → orig.type = "dir".toList ∨ orig.type = "overlayfs".toList →
        ∃ rest, new2.src = some ("overlayfs:".toList ++ rest)) := by
  refine ⟨clone_paths_dest d env tr fuel orig new oldname cname oldpath lxcpath snap newsize
    0 new2 tr2 h (le_refl 0), ?_, ?_⟩
  · intro hd
    cases d with
    | zfs =>
      have h2 := Option.some.inj h
      rw [zfs_clonepaths_eq] at h2
      simp only [hs, ht] at h2
      split_ifs at h2
      · simp at h2
      · simp only [Prod.mk.injEq] at h2
        obtain ⟨-, rfl, -⟩ := h2
        exact ⟨_, rfl⟩
    | lvm =>
      obtain ⟨r1, tr1, hr1, hn⟩ := lvm_clonepaths_inv env tr fuel orig new oldname cname
        oldpath lxcpath snap newsize 0 new2 tr2 h (le_refl 0)
      exact (lvm_clonepaths_names_set env tr fuel orig new oldname cname oldpath lxcpath
        snap r1 new2 tr1 hn hr1).2
    | btrfs =>
      obtain ⟨s0, hs0, -⟩ := btrfs_clonepaths_set env tr fuel orig new oldname cname oldpath
        lxcpath snap newsize 0 new2 tr2 h (le_refl 0)
      exact ⟨s0, hs0⟩
    | dir =>
      have h2 := Option.some.inj h
      simp only [Prod.mk.injEq] at h2
      obtain ⟨h21, h22, -⟩ := h2
      rw [dir_clonepaths_eq] at h21 h22
      split_ifs at h21 h22
      · simp at h21
      · simp at h21
      · subst h22
        exact ⟨_, rfl⟩
    | overlayfs => exact absurd rfl hd
  · intro hd hty
    subst hd
    have h2 : overlayfs_clonepaths env tr fuel orig new oldname cname oldpath lxcpath snap
        newsize = some (0, new2, tr2) := h
    unfold overlayfs_clonepaths at h2
    cases snap
    · simp at h2
    · simp only [Bool.not_true, Bool.false_eq_true, if_false, hs, ht] at h2
      cases hdn : dir_new_path fuel T oldname cname oldpath lxcpath with
      | none => simp [hdn] at h2
      | some nd =>
        simp only [hdn] at h2
        by_cases hmk : env.ret (tr ++ [Event.mkdir_p nd]) < 0
        · simp [hmk] at h2
        · simp only [hmk, if_false] at h2
          rcases hty with hty | hty
          · simp only [hty, if_true] at h2
            have h3 := Option.some.inj h2
            have h4 := overlayfs_clonepaths_dir_src env (tr ++ [Event.mkdir_p nd]) S nd
              { new with dest := some nd } true (by rw [h3])
            rw [h3] at h4
            exact h4
          · have hnd : orig.type ≠ "dir".toList := by rw [hty]; decide
            have hnl : orig.type ≠ "lvm".toList := by rw [hty]; decide
            simp only [hnd, hnl, hty, if_false, if_true] at h2
            exact overlayfs_clonepaths_overlayfs_src env _ fuel S _ oldname cname oldpath
              lxcpath new2 tr2 h2

/-- C13, where the code departs from it: `overlayfs_clonepaths` tests the
origin's type against `dir`, `lvm` and `overlayfs` and has no branch for any
other.  For an origin of another type (zfs, btrfs) with source and target set,
a snapshot, a non-empty `oldname` and the `mkdir_p` of the new target
succeeding, it returns 0 having set `new.dest` only: `new.src` is what it was,
unset for a fresh record. -/
theorem C13_overlayfs_unhandled_origin (env : Env) (tr : List Event) (fuel : Nat)
    (orig new : bdev) (oldname cname oldpath lxcpath S T : CStr) (newsize : Nat)
    (hs : orig.src = some S) (ht : orig.dest = some T)
    (hdir : orig.type ≠ "dir".toList) (hlvm : orig.type ≠ "lvm".toList)
    (hov : orig.type ≠ "overlayfs".toList)
    (hne : oldname ≠ []) (hfuel : T.length < fuel)
    (hmk : 0 ≤ env.ret (tr ++ [Event.mkdir_p (path_rewrite T oldname cname oldpath lxcpath)])) :
    overlayfs_clonepaths env tr fuel orig new oldname cname oldpath lxcpath true newsize
      = some (0, { new with dest := some (path_rewrite T oldname cname oldpath lxcpath) },
          tr ++ [Event.mkdir_p (path_rewrite T oldname cname oldpath lxcpath)]) := by
  have hd := dir_new_path_eq hne fuel T cname oldpath lxcpath hfuel
  have hmk' : ¬ env.ret (tr ++ [Event.mkdir_p (path_rewrite T oldname cname oldpath lxcpath)])
      < 0 := by omega
  simp only [overlayfs_clonepaths, hs, ht, hd, hmk', Bool.not_true, Bool.false_eq_true,
    if_false, hdir, hlvm, hov]

/-- C13, at the failing input: an overlayfs snapshot of the zfs container `c1`
returns 0 and leaves the new record without a source. -/
theorem C13_overlayfs_unhandled_origin_witness :
    overlayfs_clonepaths env_c1 [] 23 zfs_c1 blank_overlayfs "c1".toList "c2".toList
        "/var/lib/lxc".toList "/var/lib/lxc".toList true 0
      = some (0,
          { ops := Driver.overlayfs, type := "overlayfs".toList, src := none,
            dest := some "/var/lib/lxc/c2/rootfs".toList, data := none },
          [Event.mkdir_p "/var/lib/lxc/c2/rootfs".toList]) :=
  (C13_overlayfs_unhandled_origin env_c1 [] 23 zfs_c1 blank_overlayfs "c1".toList "c2".toList
    "/var/lib/lxc".toList "/var/lib/lxc".toList "/var/lib/lxc/c1/rootfs".toList
    "/var/lib/lxc/c1/rootfs".toList 0 rfl rfl (by decide) (by decide) (by decide) (by decide)
    (by decide) (by decide)).trans (by decide)

/-! ## Unsupported clone combinations (C14) -/

/-- C14: (a) the `clone_paths` of the zfs, lvm and btrfs drivers, asked for a
snapshot of an origin whose type is not the driver's name, returns -1, leaves
`new` as it was and makes no call; (b) the `clone_paths` of overlayfs, asked
for a clone that is no snapshot, returns -22, leaves `new` as it was and makes
no call; (c) the `clone_paths` of overlayfs, asked to clone an origin of type
`lvm`, returns a negative value and does not set `new.src` (with a snapshot
requested it first rewrites the origin's target, for which `oldname` is
non-empty and the fuel exceeds the target's length). -/
theorem C14_unsupported_clones (env : Env) (tr : List Event) (fuel : Nat)
    (orig new : bdev) (oldname cname oldpath lxcpath : CStr) (snap : Bool) (newsize : Nat) :
    (∀ bt ∈ bdevs, bt.ops = Driver.zfs ∨ bt.ops = Driver.lvm ∨ bt.ops = Driver.btrfs →
      orig.type ≠ bt.name →
      bt.ops.clone_paths env tr fuel orig new oldname cname oldpath lxcpath true newsize
        = some (-1, new, tr))
    ∧ Driver.overlayfs.clone_paths env tr fuel orig new oldname cname oldpath lxcpath false
        newsize = some (-22, new, tr)
    ∧ (orig.type = "lvm".toList → oldname ≠ [] →
        (∀ T, orig.dest = some T → T.length < fuel) →
        ∃ r new2 tr2,
          Driver.overlayfs.clone_paths env tr fuel orig new oldname cname oldpath lxcpath snap
            newsize = some (r, new2, tr2)
          ∧ r < 0 ∧ new2.src = new.src) := by
  refine ⟨?_, ?_, ?_⟩
  · intro bt hbt hd hty
    simp only [bdevs, List.mem_cons, List.mem_singleton, List.not_mem_nil, or_false] at hbt
    rcases hbt with rfl | rfl | rfl | rfl | rfl
    · have hty2 : ¬ orig.type = ['z', 'f', 's'] := hty
      simp only [Driver.clone_paths, zfs_clonepaths_eq]
      cases orig.src <;> cases orig.dest <;> simp [hty2]
    · have hty2 : ¬ orig.type = ['l', 'v', 'm'] := hty
      simp only [Driver.clone_paths, lvm_clonepaths, lvm_clonepaths_names]
      cases orig.src <;> cases orig.dest <;> simp [hty2]
    · have hty2 : ¬ orig.type = ['b', 't', 'r', 'f', 's'] := hty
      simp only [Driver.clone_paths, btrfs_clonepaths]
      cases orig.src <;> cases orig.dest <;> simp [hty2]
    · simp at hd
    · simp at hd
  · simp [Driver.clone_paths, overlayfs_clonepaths]
  · intro hty hne hfuel
    simp only [Driver.clone_paths, overlayfs_clonepaths]
    cases snap
    · exact ⟨-22, new, tr, by simp, by decide, rfl⟩
    · simp only [Bool.not_true, Bool.false_eq_true, if_false]
      cases hs : orig.src with
      | none => exact ⟨-1, new, tr, rfl, by decide, rfl⟩
      | some S =>
        cases ht : orig.dest with
        | none => exact ⟨-1, new, tr, rfl, by decide, rfl⟩
        | some T =>
          have hd := dir_new_path_eq hne fuel T cname oldpath lxcpath (hfuel T ht)
          have h1 : ¬ ("lvm".toList = "dir".toList) := by decide
          simp only [hd, hty, h1, if_false, if_true]
          split_ifs
          · exact ⟨_, _, _, rfl, by decide, rfl⟩
          · exact ⟨_, _, _, rfl, by decide, rfl⟩

/-- C14, at concrete inputs: a zfs snapshot of the directory container `c1` is
refused at once, so is an overlayfs clone that is no snapshot, and the
overlayfs snapshot of an LVM origin fails after creating the target. -/
theorem C14_unsupported_clones_witness :
    Driver.zfs.clone_paths env_c1 [] 23 dir_c1 (blank_typed_zfs Driver.zfs) "c1".toList
        "c2".toList "/var/lib/lxc".toList "/var/lib/lxc".toList true 0
      = some (-1, blank_typed_zfs Driver.zfs, [])
    ∧ Driver.overlayfs.clone_paths env_c1 [] 23 dir_c1 blank_overlayfs "c1".toList
        "c2".toList "/var/lib/lxc".toList "/var/lib/lxc".toList false 0
      = some (-22, blank_overlayfs, [])
    ∧ ∃ r new2 tr2, Driver.overlayfs.clone_paths env_c1 [] 23 lvm_c1 blank_overlayfs
          "c1".toList "c2".toList "/var/lib/lxc".toList "/var/lib/lxc".toList true 0
        = some (r, new2, tr2) ∧ r < 0 ∧ new2.src = blank_overlayfs.src :=
  ⟨(C14_unsupported_clones env_c1 [] 23 dir_c1 (blank_typed_zfs Driver.zfs) "c1".toList
      "c2".toList "/var/lib/lxc".toList "/var/lib/lxc".toList true 0).1
      { name := "zfs".toList, ops := Driver.zfs } (by decide) (Or.inl rfl) (by decide),
   (C14_unsupported_clones env_c1 [] 23 dir_c1 blank_overlayfs "c1".toList
      "c2".toList "/var/lib/lxc".toList "/var/lib/lxc".toList false 0).2.1,
   (C14_unsupported_clones env_c1 [] 23 lvm_c1 blank_overlayfs "c1".toList
      "c2".toList "/var/lib/lxc".toList "/var/lib/lxc".toList true 0).2.2
      (by decide) (by decide) (by decide)⟩

/-! ## Length and allocation size of the rewritten path (C15) -/

theorem to_int_add_to_int (a b : Int) : to_int (to_int a + b) = to_int (a + b) := by
  unfold to_int
  omega

theorem to_int_of_fits {x : Int} (h1 : -2147483648 ≤ x) (h2 : x < 2147483648) :
    to_int x = x := by
  unfold to_int
  omega

theorem count_occurrences_skip (oldname : CStr) (n : Nat) (s : CStr) :
    count_occurrences oldname n s = count_occurrences oldname 0 (s.drop n) := by
  induction s generalizing n with
  | nil => simp [count_occurrences]
  | cons c t ih =>
    cases n with
    | zero => simp
    | succ m => simp [count_occurrences, ih m]

theorem count_occurrences_none {oldname s : CStr}
    (h : strstr s oldname = none) : count_occurrences oldname 0 s = 0 := by
  induction s with
  | nil => simp [count_occurrences]
  | cons c t ih =>
    by_cases hp : oldname <+: c :: t
    · simp [strstr, hp] at h
    · simp only [strstr, hp, if_false, Option.map_eq_none'] at h
      simp [count_occurrences, hp, ih h]

theorem count_occurrences_some {oldname s : CStr} {k : Nat}
    (hne : oldname ≠ []) (h : strstr s oldname = some k) :
    count_occurrences oldname 0 s
      = 1 + count_occurrences oldname 0 (s.drop (k + oldname.length)) := by
  induction s generalizing k with
  | nil => simp [strstr, hne] at h
  | cons c t ih =>
    by_cases hp : oldname <+: c :: t
    · simp [strstr, hp] at h
      subst h
      have hl : 0 < oldname.length := List.length_pos.mpr hne
      obtain ⟨m, hm⟩ : ∃ m, oldname.length = m + 1 := ⟨oldname.length - 1, by omega⟩
      simp only [count_occurrences, hp, if_true, Nat.zero_add]
      rw [count_occurrences_skip, hm]
      simp
    · simp only [strstr, hp, if_false, Option.map_eq_some'] at h
      obtain ⟨k', hk', rfl⟩ := h
      simp only [count_occurrences, hp, if_false, ih hk']
      have : k' + 1 + oldname.length = (k' + oldname.length) + 1 := by omega
      simp [this]

/-- Each replaced occurrence changes the length by `|name| - |oldname|`. -/
theorem replace_occurrences_length {oldname : CStr} (name : CStr) (hne : oldname ≠ []) :
    ∀ (fuel : Nat) (s : CStr), s.length < fuel →
      ((replace_occurrences oldname name 0 s).length : Int)
        = (s.length : Int)
          + (count_occurrences oldname 0 s : Int)
            * ((name.length : Int) - (oldname.length : Int)) := by
  intro fuel
  induction fuel with
  | zero => intro s h; omega
  | succ n ih =>
    intro s h
    cases hs : strstr s oldname with
    | none => simp [replace_occurrences_none hs, count_occurrences_none hs]
    | some k =>
      have hb := strstr_bound hs
      have hl : 0 < oldname.length := List.length_pos.mpr hne
      have hlen : (s.drop (k + oldname.length)).length < n := by
        simp only [List.length_drop]; omega
      have h2 := ih _ hlen
      rw [replace_occurrences_some hne hs, count_occurrences_some hne hs]
      simp only [List.length_append, List.length_take, Nat.cast_add, h2, List.length_drop,
        Nat.cast_one]
      have hmin : min k s.length = k := by omega
      rw [hmin]
      have hsub : ((s.length - (k + oldname.length) : Nat) : Int)
          = (s.length : Int) - ((k : Int) + (oldname.length : Int)) := by omega
      rw [hsub]
      ring

/-- The counting pass adds `|name| - |oldname|` once per occurrence, in `int`
arithmetic. -/
theorem dir_new_path_count_eq {oldname : CStr} (name : CStr) (hne : oldname ≠ []) :
    ∀ (fuel : Nat) (s : CStr) (a : Int), s.length < fuel →
      dir_new_path_count fuel s oldname name (to_int a)
        = some (to_int (a + (count_occurrences oldname 0 s : Int)
            * ((name.length : Int) - (oldname.length : Int)))) := by
  intro fuel
  induction fuel with
  | zero => intro s a h; omega
  | succ n ih =>
    intro s a h
    cases hs : strstr s oldname with
    | none => simp [dir_new_path_count, hs, count_occurrences_none hs]
    | some k =>
      have hb := strstr_bound hs
      have hl : 0 < oldname.length := List.length_pos.mpr hne
      have hlen : (s.drop (k + oldname.length)).length < n := by
        simp only [List.length_drop]; omega
      simp only [dir_new_path_count, hs]
      rw [to_int_add_to_int, ih _ _ hlen, count_occurrences_some hne hs]
      congr 2
      push_cast
      ring

/-- The length of the specified rewrite. -/
theorem path_rewrite_length {oldname : CStr} (hne : oldname ≠ [])
    (src name oldpath lxcpath : CStr) :
    ((path_rewrite src oldname name oldpath lxcpath).length : Int)
      = (src.length : Int)
        + (if oldpath <+: src then (lxcpath.length : Int) - (oldpath.length : Int) else 0)
        + (count_occurrences oldname 0
              (if oldpath <+: src then src.drop oldpath.length else src) : Int)
          * ((name.length : Int) - (oldname.length : Int)) := by
  unfold path_rewrite
  by_cases hp : oldpath <+: src
  · have hle := hp.length_le
    simp only [hp, if_true, List.length_append, Nat.cast_add]
    rw [replace_occurrences_length name hne _ _ (Nat.lt_succ_self _)]
    simp only [List.length_drop]
    have hsub : ((src.length - oldpath.length : Nat) : Int)
        = (src.length : Int) - (oldpath.length : Int) := by omega
    rw [hsub]
    ring
  · simp only [hp, if_false]
    rw [replace_occurrences_length name hne _ _ (Nat.lt_succ_self _)]
    ring

/-- The allocation size is the length of the rewrite plus one, as an `int`. -/
theorem dir_new_path_nlen_eq {oldname : CStr} (hne : oldname ≠ [])
    (fuel : Nat) (src name oldpath lxcpath : CStr) (h : src.length < fuel) :
    dir_new_path_nlen fuel src oldname name oldpath lxcpath
      = some (to_int (((path_rewrite src oldname name oldpath lxcpath).length : Int) + 1)) := by
  rw [path_rewrite_length hne]
  unfold dir_new_path_nlen
  by_cases hp : oldpath <+: src
  · have hp2 := (strncmp_eq_iff src oldpath).mpr hp
    have hlen : (src.drop oldpath.length).length < fuel := by
      simp only [List.length_drop]; omega
    simp only [hp2, hp, if_true]
    rw [to_int_add_to_int, dir_new_path_count_eq name hne _ _ _ hlen]
    congr 2
    ring
  · have hp2 : ¬ strncmp_eq src oldpath oldpath.length = true :=
      fun hc => hp ((strncmp_eq_iff src oldpath).mp hc)
    simp only [hp2, hp, if_false, Bool.false_eq_true]
    rw [dir_new_path_count_eq name hne _ _ _ h]
    congr 2
    ring

/-- Every write of the second loop ends within the rewritten text and its
terminator. -/
theorem dir_new_path_write_ends_bound {oldname : CStr} (name : CStr) (hne : oldname ≠ []) :
    ∀ (fuel : Nat) (s : CStr) (off : Nat), s.length < fuel →
      ∃ ends, dir_new_path_write_ends fuel s oldname name off = some ends
        ∧ ∀ e ∈ ends, e ≤ off + (replace_occurrences oldname name 0 s).length + 1 := by
  intro fuel
  induction fuel with
  | zero => intro s off h; omega
  | succ n ih =>
    intro s off h
    cases hs : strstr s oldname with
    | none =>
      refine ⟨[off + s.length + 1], by simp [dir_new_path_write_ends, hs], ?_⟩
      intro e he
      simp only [List.mem_singleton] at he
      rw [replace_occurrences_none hs]
      omega
    | some k =>
      have hb := strstr_bound hs
      have hl : 0 < oldname.length := List.length_pos.mpr hne
      have hlen : (s.drop (k + oldname.length)).length < n := by
        simp only [List.length_drop]; omega
      obtain ⟨ends, he1, he2⟩ := ih _ (off + k + name.length) hlen
      refine ⟨(off + k) :: (off + k + name.length + 1) :: ends,
        by simp [dir_new_path_write_ends, hs, he1], ?_⟩
      have hmin : min k s.length = k := by omega
      rw [replace_occurrences_some hne hs]
      simp only [List.length_append, List.length_take, hmin]
      intro e he
      simp only [List.mem_cons] at he
      rcases he with rfl | rfl | he
      · omega
      · omega
      · have := he2 e he
        omega

/-- Every write of `dir_new_path` ends within the length of the rewrite plus
one. -/
theorem dir_new_path_ends_bound {oldname : CStr} (hne : oldname ≠ [])
    (fuel : Nat) (src name oldpath lxcpath : CStr) (h : src.length < fuel) :
    ∃ ends, dir_new_path_ends fuel src oldname name oldpath lxcpath = some ends
      ∧ ∀ e ∈ ends, e ≤ (path_rewrite src oldname name oldpath lxcpath).length + 1 := by
  obtain ⟨n, hn⟩ := dir_new_path_nlen_terminates hne fuel src name oldpath lxcpath h
  unfold dir_new_path_ends path_rewrite
  simp only [hn]
  by_cases hp : oldpath <+: src
  · have hp2 := (strncmp_eq_iff src oldpath).mpr hp
    have hlen : (src.drop oldpath.length).length < fuel := by
      simp only [List.length_drop]; omega
    obtain ⟨ends, he1, he2⟩ :=
      dir_new_path_write_ends_bound name hne fuel _ lxcpath.length hlen
    simp only [hp2, hp, if_true, he1]
    refine ⟨_, rfl, ?_⟩
    intro e he
    simp only [List.mem_cons] at he
    simp only [List.length_append]
    rcases he with rfl | he
    · omega
    · exact he2 e he
  · have hp2 : ¬ strncmp_eq src oldpath oldpath.length = true :=
      fun hc => hp ((strncmp_eq_iff src oldpath).mp hc)
    obtain ⟨ends, he1, he2⟩ := dir_new_path_write_ends_bound name hne fuel src 0 h
    simp only [hp2, hp, if_false, Bool.false_eq_true, he1]
    refine ⟨_, rfl, ?_⟩
    intro e he
    have := he2 e he
    omega

/-- The last write of the second loop, the final `sprintf` with its NUL, ends
right after the rewritten text. -/
theorem dir_new_path_write_ends_last {oldname : CStr} (name : CStr) (hne : oldname ≠ []) :
    ∀ (fuel : Nat) (s : CStr) (off : Nat), s.length < fuel →
      ∃ ends, dir_new_path_write_ends fuel s oldname name off = some ends
        ∧ off + (replace_occurrences oldname name 0 s).length + 1 ∈ ends := by
  intro fuel
  induction fuel with
  | zero => intro s off h; omega
  | succ n ih =>
    intro s off h
    cases hs : strstr s oldname with
    | none =>
      refine ⟨[off + s.length + 1], by simp [dir_new_path_write_ends, hs], ?_⟩
      rw [replace_occurrences_none hs]
      exact List.mem_singleton.mpr rfl
    | some k =>
      have hb := strstr_bound hs
      have hl : 0 < oldname.length := List.length_pos.mpr hne
      have hlen : (s.drop (k + oldname.length)).length < n := by
        simp only [List.length_drop]; omega
      obtain ⟨ends, he1, he2⟩ := ih _ (off + k + name.length) hlen
      refine ⟨(off + k) :: (off + k + name.length + 1) :: ends,
        by simp [dir_new_path_write_ends, hs, he1], ?_⟩
      have hmin : min k s.length = k := by omega
      rw [replace_occurrences_some hne hs]
      simp only [List.length_append, List.length_take, hmin]
      refine List.mem_cons_of_mem _ (List.mem_cons_of_mem _ ?_)
      have e : off + (k + name.length
            + (replace_occurrences oldname name 0 (s.drop (k + oldname.length))).length) + 1
          = off + k + name.length
            + (replace_occurrences oldname name 0 (s.drop (k + oldname.length))).length + 1 := by
        omega
      rw [e]
      exact he2

/-- The last write of `dir_new_path` ends at the length of the rewrite plus
one. -/
theorem dir_new_path_ends_last {oldname : CStr} (hne : oldname ≠ [])
    (fuel : Nat) (src name oldpath lxcpath : CStr) (h : src.length < fuel) :
    ∃ ends, dir_new_path_ends fuel src oldname name oldpath lxcpath = some ends
      ∧ (path_rewrite src oldname name oldpath lxcpath).length + 1 ∈ ends := by
  obtain ⟨n, hn⟩ := dir_new_path_nlen_terminates hne fuel src name oldpath lxcpath h
  unfold dir_new_path_ends path_rewrite
  simp only [hn]
  by_cases hp : oldpath <+: src
  · have hp2 := (strncmp_eq_iff src oldpath).mpr hp
    have hlen : (src.drop oldpath.length).length < fuel := by
      simp only [List.length_drop]; omega
    obtain ⟨ends, he1, he2⟩ :=
      dir_new_path_write_ends_last name hne fuel _ lxcpath.length hlen
    simp only [hp2, hp, if_true, he1]
    refine ⟨_, rfl, List.mem_cons_of_mem _ ?_⟩
    simp only [List.length_append]
    exact he2
  · have hp2 : ¬ strncmp_eq src oldpath oldpath.length = true :=
      fun hc => hp ((strncmp_eq_iff src oldpath).mp hc)
    obtain ⟨ends, he1, he2⟩ := dir_new_path_write_ends_last name hne fuel src 0 h
    simp only [hp2, hp, if_false, Bool.false_eq_true, he1]
    refine ⟨_, rfl, ?_⟩
    simpa using he2

theorem count_occurrences_replicate (c : Char) (n : Nat) :
    count_occurrences [c] 0 (List.replicate n c) = n := by
  induction n with
  | zero => rfl
  | succ m ih =>
    have hp : [c] <+: c :: List.replicate m c := by
      simp [List.prefix_cons_inj]
    simp only [List.replicate_succ, count_occurrences, hp, if_true, List.length_singleton,
      Nat.sub_self, ih]
    omega

/-- C15, as amended: for a non-empty `oldname` (with an empty one `dir_new_path`
does not return), `dir_new_path` returns a string of length
`|src| + Δroot + k·Δname`, where `Δroot = |newroot| - |oldroot|` when `src`
begins with `oldroot` and `0` otherwise, `Δname = |newname| - |oldname|`, and
`k` counts the non-overlapping, left-to-right occurrences of `oldname` in the
part of `src` after the matched prefix.  The counting pass keeps the allocation
size in the `int` `nlen`: whenever that length plus one is below 2^31, `nlen` is
exactly that length plus one and every write of the writing pass, terminators
included, ends at an offset of at most `nlen`. -/
theorem C15_dir_new_path_length (src oldname newname oldroot newroot : CStr)
    (fuel : Nat) (hne : oldname ≠ []) (hfuel : src.length < fuel) :
    ∃ r, dir_new_path fuel src oldname newname oldroot newroot = some r
      ∧ (r.length : Int)
          = (src.length : Int)
            + (if oldroot <+: src then (newroot.length : Int) - (oldroot.length : Int)
               else 0)
            + (count_occurrences oldname 0
                  (if oldroot <+: src then src.drop oldroot.length else src) : Int)
              * ((newname.length : Int) - (oldname.length : Int))
      ∧ ((r.length : Int) + 1 < 2147483648 →
          ∃ nlen ends,
            dir_new_path_nlen fuel src oldname newname oldroot newroot = some nlen
            ∧ nlen = (r.length : Int) + 1
            ∧ dir_new_path_ends fuel src oldname newname oldroot newroot = some ends
            ∧ ∀ e ∈ ends, (e : Int) ≤ nlen) := by
  refine ⟨path_rewrite src oldname newname oldroot newroot,
    dir_new_path_eq hne fuel src newname oldroot newroot hfuel,
    path_rewrite_length hne src newname oldroot newroot, ?_⟩
  intro hfit
  obtain ⟨ends, he1, he2⟩ := dir_new_path_ends_bound hne fuel src newname oldroot newroot hfuel
  refine ⟨_, ends, ?_, rfl, he1, ?_⟩
  · rw [dir_new_path_nlen_eq hne fuel src newname oldroot newroot hfuel,
      to_int_of_fits (by omega) hfit]
  · intro e he
    have := he2 e he
    omega

/-- C15, at a concrete input: `/abc/bc` with root `/ab` replaced by `/r` and name
`bc` by `X` gives the five characters of `/rc/X`; six bytes are allocated and
the four writes end at offsets 3, 4, 6 and 6. -/
theorem C15_dir_new_path_length_witness :
    (∃ r, dir_new_path 8 "/abc/bc".toList "bc".toList "X".toList "/ab".toList "/r".toList
          = some r
      ∧ (r.length : Int)
          = (("/abc/bc".toList.length : Nat) : Int)
            + (if "/ab".toList <+: "/abc/bc".toList then
                 (("/r".toList.length : Nat) : Int) - (("/ab".toList.length : Nat) : Int)
               else 0)
            + (count_occurrences "bc".toList 0
                  (if "/ab".toList <+: "/abc/bc".toList then
                     "/abc/bc".toList.drop "/ab".toList.length
                   else "/abc/bc".toList) : Int)
              * ((("X".toList.length : Nat) : Int) - (("bc".toList.length : Nat) : Int))
      ∧ ((r.length : Int) + 1 < 2147483648 →
          ∃ nlen ends,
            dir_new_path_nlen 8 "/abc/bc".toList "bc".toList "X".toList "/ab".toList
                "/r".toList = some nlen
            ∧ nlen = (r.length : Int) + 1
            ∧ dir_new_path_ends 8 "/abc/bc".toList "bc".toList "X".toList "/ab".toList
                "/r".toList = some ends
            ∧ ∀ e ∈ ends, (e : Int) ≤ nlen))
    ∧ dir_new_path 8 "/abc/bc".toList "bc".toList "X".toList "/ab".toList "/r".toList
        = some "/rc/X".toList
    ∧ count_occurrences "bc".toList 0 "c/bc".toList = 1
    ∧ dir_new_path_nlen 8 "/abc/bc".toList "bc".toList "X".toList "/ab".toList "/r".toList
        = some 6
    ∧ dir_new_path_ends 8 "/abc/bc".toList "bc".toList "X".toList "/ab".toList "/r".toList
        = some [3, 4, 6, 6] :=
  ⟨C15_dir_new_path_length "/abc/bc".toList "bc".toList "X".toList "/ab".toList
      "/r".toList 8 (by decide) (by decide),
    by decide, by decide, by decide, by decide⟩

/-- C15, the claim as written fails: in a source of 65536 letters `a` every `a`
is replaced by a name of 65537 letters.  The result has 65536 · 65537 =
4295032832 characters, the `int` sum of the counting pass wraps around to 65537,
so 65537 bytes are allocated, and the last write ends at offset 4295032833. -/
theorem C15_counterexample :
    ∃ r ends,
      dir_new_path 65537 (List.replicate 65536 'a') "a".toList (List.replicate 65537 'b')
          "/x".toList "/y".toList = some r
      ∧ r.length = 4295032832
      ∧ dir_new_path_nlen 65537 (List.replicate 65536 'a') "a".toList
          (List.replicate 65537 'b') "/x".toList "/y".toList = some 65537
      ∧ dir_new_path_ends 65537 (List.replicate 65536 'a') "a".toList
          (List.replicate 65537 'b') "/x".toList "/y".toList = some ends
      ∧ 4295032833 ∈ ends := by
  have hne : "a".toList ≠ [] := by decide
  have hfuel : (List.replicate 65536 'a').length < 65537 := by
    rw [List.length_replicate]; norm_num
  have hnp : ¬ "/x".toList <+: List.replicate 65536 'a' := by
    intro hp
    have h1 : ('/' : Char) ∈ List.replicate 65536 'a' :=
      hp.subset (by decide)
    have h2 := List.eq_of_mem_replicate h1
    exact absurd h2 (by decide)
  have hcount : count_occurrences "a".toList 0 (List.replicate 65536 'a') = 65536 :=
    count_occurrences_replicate 'a' 65536
  have hlenI := path_rewrite_length hne (List.replicate 65536 'a') (List.replicate 65537 'b')
    "/x".toList "/y".toList
  simp only [hnp, if_false, hcount, List.length_replicate] at hlenI
  have hlen : (path_rewrite (List.replicate 65536 'a') "a".toList (List.replicate 65537 'b')
      "/x".toList "/y".toList).length = 4295032832 := by
    have h1 : ("a".toList.length : Int) = 1 := by decide
    rw [h1] at hlenI
    norm_num at hlenI
    exact_mod_cast hlenI
  obtain ⟨ends, he1, he2⟩ := dir_new_path_ends_last hne 65537 (List.replicate 65536 'a')
    (List.replicate 65537 'b') "/x".toList "/y".toList hfuel
  refine ⟨_, ends, dir_new_path_eq hne 65537 _ _ _ _ hfuel, hlen, ?_, he1, ?_⟩
  · rw [dir_new_path_nlen_eq hne 65537 _ _ _ _ hfuel, hlen]
    decide
  · rw [hlen] at he2
    exact he2

/-! ## The source of an overlayfs record (C16) -/

theorem index_none_count {s : CStr} {c : Char} (h : index s c = none) : s.count c = 0 := by
  induction s with
  | nil => rfl
  | cons x t ih =>
    by_cases hx : x = c
    · simp [index, hx] at h
    · simp only [index, hx, if_false, Option.map_eq_none'] at h
      simp [List.count_cons, hx, ih h]

theorem index_some_count {s : CStr} {c : Char} {i : Nat} (h : index s c = some i) :
    s.count c = 1 + (s.drop (i + 1)).count c := by
  induction s generalizing i with
  | nil => simp [index] at h
  | cons x t ih =>
    by_cases hx : x = c
    · simp [index, hx] at h
      subst h
      simp [List.count_cons, hx, Nat.add_comm]
    · simp only [index, hx, if_false, Option.map_eq_some'] at h
      obtain ⟨k, hk, rfl⟩ := h
      simp [List.count_cons, hx, ih hk]

theorem overlayfs_src_index (lower upper : CStr) :
    index ("overlayfs:".toList ++ lower ++ ':' :: upper) ':' = some 9 := by
  have h := index_append_cons "overlayfs".toList (lower ++ ':' :: upper) ':' (by decide)
  have e : "overlayfs:".toList ++ lower ++ ':' :: upper
      = "overlayfs".toList ++ ':' :: (lower ++ ':' :: upper) := by
    simp
  rw [e, h]
  rfl

theorem overlayfs_src_drop (lower upper : CStr) :
    ("overlayfs:".toList ++ lower ++ ':' :: upper).drop (9 + 1) = lower ++ ':' :: upper := by
  simp

/-- C16: on a record of type `overlayfs` whose source is `overlayfs:<lower>:<upper>`,
with no `:` in `lower` (`upper` may contain some), and whose target is set,
`overlayfs_mount` makes exactly one call, `mount(lower, target, "overlayfs",
MS_MGC_VAL, "upperdir=<upper>,lowerdir=<lower>")`, and returns its result.  On
any record whose source holds fewer than two `:` it returns -22 and calls
nothing. -/
theorem C16_overlayfs_mount_source (env : Env) (tr : List Event) (b : bdev) :
    (∀ lower upper T : CStr, b.type = "overlayfs".toList →
        b.src = some ("overlayfs:".toList ++ lower ++ ':' :: upper) → ':' ∉ lower →
        b.dest = some T →
        overlayfs_mount env tr b
          = (env.ret (tr ++ [Event.mount lower T "overlayfs".toList MS_MGC_VAL
                (some ("upperdir=".toList ++ upper ++ ",lowerdir=".toList ++ lower))]),
             tr ++ [Event.mount lower T "overlayfs".toList MS_MGC_VAL
                (some ("upperdir=".toList ++ upper ++ ",lowerdir=".toList ++ lower))]))
    ∧ (∀ S : CStr, b.src = some S → S.count ':' < 2 →
        overlayfs_mount env tr b = (-22, tr)) := by
  constructor
  · intro lower upper T hty hsrc hl hd
    have hi := overlayfs_src_index lower upper
    have hdrop := overlayfs_src_drop lower upper
    have hj := index_append_cons lower upper ':' hl
    have hlen : ("upperdir=".toList ++ upper ++ ",lowerdir=".toList ++ lower).length
        < lower.length + upper.length + "upperdir=,lowerdir=".length + 1 := by
      simp only [List.length_append]
      have h1 : "upperdir=".toList.length = 9 := by decide
      have h2 : ",lowerdir=".toList.length = 10 := by decide
      have h3 : "upperdir=,lowerdir=".length = 19 := by decide
      omega
    have hfit := snprintf_fits _ _ hlen
    unfold overlayfs_mount
    simp only [hty, ne_eq, not_true_eq_false, if_false, hsrc, hd, hi, hdrop, hj]
    have htake : (lower ++ ':' :: upper).take lower.length = lower := by simp
    have hdrop2 : (lower ++ ':' :: upper).drop (lower.length + 1) = upper := by simp
    simp only [htake, hdrop2, hfit]
    have hno : ¬ (((("upperdir=".toList ++ upper ++ ",lowerdir=".toList ++ lower).length : Nat)
          : Int) < 0
        ∨ ((("upperdir=".toList ++ upper ++ ",lowerdir=".toList ++ lower).length : Nat) : Int)
          ≥ ((lower.length + upper.length + "upperdir=,lowerdir=".length + 1 : Nat) : Int)) := by
      omega
    simp only [hno, if_false]
  · intro S hS hc
    unfold overlayfs_mount
    by_cases hty : b.type = "overlayfs".toList
    · simp only [hty, ne_eq, not_true_eq_false, if_false, hS]
      cases hd : b.dest with
      | none => rfl
      | some T =>
        simp only []
        cases hi : index S ':' with
        | none => rfl
        | some i =>
          simp only []
          cases hj : index (S.drop (i + 1)) ':' with
          | none => rfl
          | some j =>
            have c1 := index_some_count hi
            have c2 := index_some_count hj
            omega
    · simp only [ne_eq, hty, not_false_eq_true, if_true]

/-- C16, at concrete records: the source `overlayfs:/l:/u:x` is parsed into the
lower path `/l` and the upper path `/u:x`; the source `overlayfs:/l` has a
single `:` and is refused. -/
theorem C16_overlayfs_mount_source_witness :
    overlayfs_mount env_c1 []
        { ops := Driver.overlayfs, type := "overlayfs".toList,
          src := some "overlayfs:/l:/u:x".toList, dest := some "/t".toList, data := none }
      = (0, [Event.mount "/l".toList "/t".toList "overlayfs".toList MS_MGC_VAL
              (some "upperdir=/u:x,lowerdir=/l".toList)])
    ∧ overlayfs_mount env_c1 []
        { ops := Driver.overlayfs, type := "overlayfs".toList,
          src := some "overlayfs:/l".toList, dest := some "/t".toList, data := none }
      = (-22, []) :=
  ⟨((C16_overlayfs_mount_source env_c1 []
        { ops := Driver.overlayfs, type := "overlayfs".toList,
          src := some "overlayfs:/l:/u:x".toList, dest := some "/t".toList, data := none }).1
      "/l".toList "/u:x".toList "/t".toList rfl rfl (by decide) rfl).trans (by decide),
   (C16_overlayfs_mount_source env_c1 []
        { ops := Driver.overlayfs, type := "overlayfs".toList,
          src := some "overlayfs:/l".toList, dest := some "/t".toList, data := none }).2
      "overlayfs:/l".toList rfl (by decide)⟩

/-! ## The default pool of `zfs_clone` (C17) -/

/-- C17: when no line of `zfs list` contains the origin path, `zfs_clone` writes
`tank` into `output`, finds no blank in it and returns -1 right after the
listing: no `fork`, no `zfs create`, `zfs snapshot` or `zfs clone` follows,
with or without `snapshot`. -/
theorem C17_zfs_clone_default_pool (env : Env) (tr : List Event)
    (opath npath oname nname lxcpath : CStr) (snapshot : Bool)
    (h : zfs_list_entry env opath = none) :
    zfs_clone env tr opath npath oname nname lxcpath snapshot
      = (-1, tr ++ [Event.popen "zfs list".toList]) := by
  have hi : index "tank".toList ' ' = none := by decide
  unfold zfs_clone
  simp only [h, hi]

/-- C17, at a concrete input: the pool of `env_zfs` lists `c1` only; cloning from
the path of a container `c9` stops after `zfs list`, and so does
`zfs_clonepaths` for an origin at that path. -/
theorem C17_zfs_clone_default_pool_witness :
    zfs_list_entry env_zfs "/var/lib/lxc/c9/rootfs".toList = none
    ∧ zfs_clone env_zfs [] "/var/lib/lxc/c9/rootfs".toList "/var/lib/lxc/c2/rootfs".toList
          "c9".toList "c2".toList "/var/lib/lxc".toList false
        = (-1, [Event.popen "zfs list".toList])
    ∧ zfs_clonepaths env_zfs []
          { ops := Driver.dir, type := "dir".toList,
            src := some "/var/lib/lxc/c9/rootfs".toList,
            dest := some "/var/lib/lxc/c9/rootfs".toList, data := none }
          (blank_typed_zfs Driver.zfs) "c9".toList "c2".toList "/var/lib/lxc".toList
          "/var/lib/lxc".toList false 0
        = (-1, { ops := Driver.zfs, type := "zfs".toList,
                 src := some "/var/lib/lxc/c2/rootfs".toList,
                 dest := some "/var/lib/lxc/c2/rootfs".toList, data := none },
           [Event.popen "zfs list".toList]) :=
  ⟨by decide,
   C17_zfs_clone_default_pool env_zfs [] "/var/lib/lxc/c9/rootfs".toList
     "/var/lib/lxc/c2/rootfs".toList "c9".toList "c2".toList "/var/lib/lxc".toList false
     (by decide),
   by decide⟩

end Lxc
